import Mathlib

/-!
Shallow embedding, in Lean 4, of the krea-ai-mcp server (TypeScript).

The repository exposes Krea's image-generation HTTP API as MCP tools. Its
sources contain a thin HTTP client (`kreaClient.ts`, first document), a model
catalog, and two copies of the tool server: a newer copy (the document
following the client in `kreaClient.ts`, with the `krea_upscale_image` tool,
size-string parsing, and two-field job-id extraction) and an older copy (the
first document of `index.ts`, generate-only, single-field job-id extraction).
The embedding models both copies: namespace `Srv` holds the newer copy,
namespace `Legacy` the older one, and shared helpers (identical in both
copies) live at the top of namespace `KreaMcp`.

Conventions of the embedding:
* JavaScript's dynamically typed JSON values are the inductive `Json`;
  JS `undefined` is `Option.none` wherever it can flow.
* JS objects are association lists; a later binding shadows an earlier one
  (JSON.parse keeps the last duplicate key), so property lookup takes the
  last match and property assignment appends.
* Machine numbers are `Nat`/`ℚ`; the code never does arithmetic on the
  rational-valued tuning parameters, it only passes them through.
* Fallible code returns `Except String` (the thrown `Error`'s message).
* The network is an oracle: the create-call response and the n-th poll
  response are explicit arguments, so "no network call happens" is expressed
  as the result not depending on (or consuming nothing of) the oracle.
* Wall time is idealized: the poll loop's clock advances by `pollIntervalMs`
  per iteration (the one `sleep` of an iteration); the loop is written with
  explicit fuel, and `timeoutMs` units of fuel are provably sufficient
  whenever the interval is positive.
-/

namespace KreaMcp

/-- JSON value as handled by the server: the closed recursive variant of
null, booleans, numbers, strings, arrays and string-keyed objects. -/
inductive Json where
  | null
  | bool (b : Bool)
  | num (q : ℚ)
  | str (s : String)
  | arr (items : List Json)
  | obj (fields : List (String × Json))

/-- Property read on a JS object: the last binding of the key wins (duplicate
keys in an object literal or in JSON.parse keep the last value). Arrays'
numeric index and `length` properties are not modeled; no call site of the
repository reads them. -/
def jsGet (fields : List (String × Json)) (key : String) : Option Json :=
  fields.reverse.lookup key

/-- Truthy-object test, `value && typeof value === "object"` in the source:
true for arrays and objects, false for null (typeof "object" but falsy) and
every primitive. -/
def jsTruthyObject : Json → Bool
  | .arr _ => true
  | .obj _ => true
  | _ => false

/-- Truthy-object test lifted to a possibly-undefined value. -/
def jsTruthyObjectU : Option Json → Bool
  | some j => jsTruthyObject j
  | none => false

/-- Property access `value[key]` on an arbitrary JS value (an object yields
its binding, anything else yields undefined). -/
def jsProp : Json → String → Option Json
  | .obj fields, key => jsGet fields key
  | _, _ => none

/-- Model of `pickJob` (identical in both server copies): an object response
whose truthy-object `job` field exists unwraps to that field, any other
object (or array) is returned whole, and every non-object becomes the empty
record. -/
def pickJob (rawResponse : Option Json) : Json :=
  match rawResponse with
  | some r =>
    if jsTruthyObject r then
      match jsProp r "job" with
      | some j => if jsTruthyObject j then j else r
      | none => r
    else .obj []
  | none => .obj []

/-- Model of `readUnknown` (identical in both copies): walk a key path,
returning undefined the moment the current value is not a truthy object or
the key is absent. Never throws. -/
def readUnknown (obj : Option Json) (path : List String) : Option Json :=
  match path with
  | [] => obj
  | key :: rest =>
    match obj with
    | some current =>
      if jsTruthyObject current then readUnknown (jsProp current key) rest else none
    | none => none

/-- Model of `readString`: `readUnknown` filtered to string results. -/
def readString (obj : Option Json) (path : List String) : Option String :=
  match readUnknown obj path with
  | some (.str s) => some s
  | _ => none

/-- Model of `asObject`: the value itself when it is a truthy object, null
(here `none`) otherwise. -/
def asObject (value : Json) : Option Json :=
  if jsTruthyObject value then some value else none

/-- Model of `normalizeStatus`: lower-case a string status (character-wise,
as `String.prototype.toLowerCase` acts on the statuses at hand); a non-string
(undefined at every call site) normalizes to the sentinel "unknown". -/
def normalizeStatus : Option String → String
  | some s => String.mk (s.data.map Char.toLower)
  | none => "unknown"

/-- Model of `isTerminalStatus`. -/
def isTerminalStatus (status : String) : Bool :=
  status == "completed" || status == "failed" || status == "cancelled"

/-- Model of `looksLikeUrl`: `new URL(value)` succeeds and the protocol is
http or https. The WHATWG URL parser is approximated by: the string starts
with the scheme-and-separator and something follows it. (The approximation
ignores WHATWG details such as scheme case-folding and host validation;
no claim depends on them.) -/
def looksLikeUrl (value : String) : Bool :=
  ("http://".data.isPrefixOf value.data && "http://".length < value.length)
  || ("https://".data.isPrefixOf value.data && "https://".length < value.length)

/-- Model of the while-loop of `extractHttpUrls`: an explicit stack, a
`Set`-like accumulator kept in insertion order (membership is checked before
appending, as `Set.add` does). JS `stack.push` of array items or object
values followed by `stack.pop` processes them in reverse order, hence the
`reverse` when the children replace their parent on the stack. -/
def extractLoop : List Json → List String → List String
  | [], found => found
  | .null :: rest, found => extractLoop rest found
  | .bool _ :: rest, found => extractLoop rest found
  | .num _ :: rest, found => extractLoop rest found
  | .str s :: rest, found =>
    extractLoop rest (if looksLikeUrl s && !found.contains s then found ++ [s] else found)
  | .arr items :: rest, found => extractLoop (items.reverse ++ rest) found
  | .obj fields :: rest, found => extractLoop ((fields.map Prod.snd).reverse ++ rest) found
termination_by stack _ => (stack.map sizeOf).sum
decreasing_by
  all_goals
    simp only [List.map_append, List.sum_append, List.map_reverse, List.sum_reverse,
      List.map_cons, List.sum_cons, Json.null.sizeOf_spec, Json.bool.sizeOf_spec,
      Json.num.sizeOf_spec, Json.str.sizeOf_spec, Json.arr.sizeOf_spec, Json.obj.sizeOf_spec]
  all_goals first
  | omega
  | · have harr : ∀ l : List Json, (l.map sizeOf).sum < sizeOf l := by
        intro l; induction l with
        | nil => simp
        | cons a l ih => simp only [List.map_cons, List.sum_cons, List.cons.sizeOf_spec]; omega
      have := harr items
      omega
  | · have hobj : ∀ l : List (String × Json), ((l.map Prod.snd).map sizeOf).sum < sizeOf l := by
        intro l; induction l with
        | nil => simp
        | cons a l ih =>
          obtain ⟨k, v⟩ := a
          simp only [List.map_cons, List.sum_cons, List.cons.sizeOf_spec, Prod.mk.sizeOf_spec]
          omega
      have := hobj fields
      omega

/-- Model of `extractHttpUrls` on a JSON value: run the stack loop from a
one-element stack and an empty found-set. -/
def extractHttpUrls (value : Json) : List String := extractLoop [value] []

/-- Model of `extractHttpUrls` applied to a possibly-undefined value (its
parameter is `unknown`; an undefined value is neither string, array nor
object, so nothing is collected). -/
def extractHttpUrlsU (value : Option Json) : List String :=
  match value with
  | some v => extractHttpUrls v
  | none => []

/-- Specification-side predicate for the claim on `extractHttpUrls`: `s` is a
string leaf occurring anywhere inside the JSON value. -/
inductive StringLeaf : Json → String → Prop where
  | str (s : String) : StringLeaf (.str s) s
  | arr {items : List Json} {j : Json} {s : String} :
      j ∈ items → StringLeaf j s → StringLeaf (.arr items) s
  | obj {fields : List (String × Json)} {k : String} {j : Json} {s : String} :
      (k, j) ∈ fields → StringLeaf j s → StringLeaf (.obj fields) s

/-- The worked URL-extraction example of the specification:
`{"a": "https://x.test/i.png", "b": ["not a url", "http://y.test/j.png"],
"c": {"d": "ftp://bad"}}`. -/
def urlExampleJson : Json :=
  .obj [("a", .str "https://x.test/i.png"),
        ("b", .arr [.str "not a url", .str "http://y.test/j.png"]),
        ("c", .obj [("d", .str "ftp://bad")])]

/-- Hexadecimal digit, for JSON string escapes of control characters. -/
def hexDigitChar (n : Nat) : Char :=
  if n < 10 then Char.ofNat (48 + n) else Char.ofNat (87 + n)

/-- JSON string escaping as `JSON.stringify` performs it on the characters
the repository's data can contain: quote, backslash, and control characters. -/
def jsonEscapeChar (c : Char) : String :=
  if c = '"' then "\\\""
  else if c = '\\' then "\\\\"
  else if c = '\n' then "\\n"
  else if c = '\r' then "\\r"
  else if c = '\t' then "\\t"
  else if c.toNat < 32 then
    "\\u00" ++ String.mk [hexDigitChar (c.toNat / 16), hexDigitChar (c.toNat % 16)]
  else String.singleton c

/-- Escape every character of a string for JSON output. -/
def jsonEscape (s : String) : String :=
  String.join (s.data.map jsonEscapeChar)

/-- Model of `JSON.stringify` on the embedded JSON values. Integers print as
JavaScript prints them; the decimal rendering of non-integer numbers is not
modeled (no claim stringifies a fractional number). -/
def jsonStringify : Json → String
  | .null => "null"
  | .bool true => "true"
  | .bool false => "false"
  | .num q => if q.den = 1 then toString q.num else toString q
  | .str s => "\"" ++ jsonEscape s ++ "\""
  | .arr items =>
    "[" ++ String.intercalate "," (items.attach.map fun x => jsonStringify x.1) ++ "]"
  | .obj fields =>
    "\x7b" ++
      String.intercalate ","
        (fields.attach.map fun x =>
          "\"" ++ jsonEscape x.1.1 ++ "\":" ++ jsonStringify x.1.2) ++
      "\x7d"
termination_by value => sizeOf value
decreasing_by
  · have h := List.sizeOf_lt_of_mem x.2
    simp only [Json.arr.sizeOf_spec]
    omega
  · obtain ⟨⟨k, v⟩, hmem⟩ := x
    have h := List.sizeOf_lt_of_mem hmem
    simp only [Prod.mk.sizeOf_spec] at h
    simp only [Json.obj.sizeOf_spec]
    omega

/-- Model of `stringifyUnknown`: a string is returned as itself, anything
else goes through `JSON.stringify`. `JSON.stringify(undefined)` is undefined
(`none`); on the embedded values the stringifier never throws, so the
`String(value)` fallback is unreachable. -/
def stringifyUnknown : Option Json → Option String
  | some (.str s) => some s
  | some v => some (jsonStringify v)
  | none => none

/-- JS template-literal interpolation of a string-or-undefined value:
`${undefined}` renders as "undefined". -/
def jsTemplate (value : Option String) : String :=
  value.getD "undefined"

/-! HTTP transport (`kreaClient.ts`, `KreaClient`). -/

/-- An HTTP response as the transport observes it: numeric status and the
full body read as text. -/
structure HttpResponse where
  status : Nat
  bodyText : String

/-- Model of `KreaApiError`: message, numeric HTTP status, and the
stringified body (undefined when the body value was undefined). -/
structure KreaApiError where
  message : String
  status : Nat
  body : Option String

/-- Fetch's `Response.ok`: the status is in the 2xx range. -/
def responseOk (status : Nat) : Prop :=
  200 ≤ status ∧ status ≤ 299

instance (status : Nat) : Decidable (responseOk status) := by
  unfold responseOk; infer_instance

/-- JS `String.prototype.trim` on the embedded strings: strip leading and
trailing whitespace characters. -/
def jsTrim (s : String) : String :=
  String.mk (((s.data.dropWhile Char.isWhitespace).reverse.dropWhile Char.isWhitespace).reverse)

/-- Body handling of `KreaClient.request`: a body that is non-empty after
trimming is JSON-parsed, keeping the raw text as the value when the parse
fails; an empty (or whitespace-only) body yields undefined. `JSON.parse` is
external, so the parse is an explicit oracle argument. -/
def responseBodyValue (parseJson : String → Option Json) (response : HttpResponse) :
    Option Json :=
  if 0 < (jsTrim response.bodyText).length then
    match parseJson response.bodyText with
    | some parsed => some parsed
    | none => some (.str response.bodyText)
  else none

/-- Model of `KreaClient.request` after the fetch: build the body value, then
fail with a `KreaApiError` carrying the status and stringified body when the
status is not 2xx, else return the body value. Exactly one response is
consumed; there is no retry. -/
def kreaRequest (parseJson : String → Option Json) (response : HttpResponse) :
    Except KreaApiError (Option Json) :=
  let jsonBody := responseBodyValue parseJson response
  if responseOk response.status then
    .ok jsonBody
  else
    .error ⟨"Krea API error " ++ toString response.status, response.status,
      stringifyUnknown jsonBody⟩

/-- One call of the transport against a stream of pending responses: it
consumes exactly the first response (success or failure), leaving the rest —
the no-retry property of the layer. -/
def kreaRequestStream (parseJson : String → Option Json) :
    List HttpResponse → Option (Except KreaApiError (Option Json) × List HttpResponse)
  | [] => none
  | response :: rest => some (kreaRequest parseJson response, rest)

/-- JS `String.prototype.endsWith` on the embedded strings (character-wise
suffix test). -/
def strEndsWith (s suffix : String) : Bool :=
  suffix.data.isSuffixOf s.data

/-- Model of the `KreaClient` constructor's base-URL normalization:
`baseUrl.endsWith("/") ? baseUrl.slice(0, -1) : baseUrl`. -/
def clientBaseUrl (baseUrl : String) : String :=
  if strEndsWith baseUrl "/" then baseUrl.dropRight 1 else baseUrl

/-- URL of a request issued by a client constructed from `baseUrl`:
`` `${this.baseUrl}${path}` `` with the stored, normalized base. -/
def requestUrl (baseUrl path : String) : String :=
  clientBaseUrl baseUrl ++ path

/-! Model catalog (`models.ts`). -/

/-- A required-field name of the model catalog. -/
inductive RequiredField where
  | prompt
  | width
  | height
  | referenceImages
  | imageUrl
deriving DecidableEq

/-- Printed form of a required-field name, as `describeRequiredFields`
joins them. -/
def RequiredField.toStr : RequiredField → String
  | .prompt => "prompt"
  | .width => "width"
  | .height => "height"
  | .referenceImages => "referenceImages"
  | .imageUrl => "imageUrl"

/-- Model of `describeRequiredFields`. -/
def describeRequiredFields (requiredFields : List RequiredField) : String :=
  if requiredFields = [] then "none"
  else String.intercalate ", " (requiredFields.map RequiredField.toStr)

/-- Model of `ModelDefinition`: one static catalog entry. -/
structure ModelDefinition where
  title : String
  endpoint : String
  requiredFields : List RequiredField
  fixedPayload : Option (List (String × Json)) := none
  defaultWidth : Option Nat := none
  defaultHeight : Option Nat := none
  notes : Option String := none

/-- Catalog entry `flux_1_1_pro` (identical in both catalog copies): required
prompt/width/height with defaults 1024×1024 — the model shape the spec's
generate-builder example uses. -/
def flux_1_1_pro : ModelDefinition :=
  { title := "BFL Flux 1.1 Pro"
    endpoint := "/generate/image/bfl/flux-1.1-pro"
    requiredFields := [.prompt, .width, .height]
    defaultWidth := some 1024
    defaultHeight := some 1024 }

/-- Catalog entry `flux_1_dev` (identical in both catalog copies): only the
prompt is required. -/
def flux_1_dev : ModelDefinition :=
  { title := "BFL Flux 1 Dev"
    endpoint := "/generate/image/bfl/flux-1-dev"
    requiredFields := [.prompt]
    notes := some "General-purpose text-to-image model." }

/-- Conditionally add an optional scalar input to a payload — the repeated
`if (input.x !== undefined) payload.k = input.x` blocks of both payload
builders. Payload keys are append-only here and lookup is last-wins, which
matches JS object assignment for reads. -/
def optField {α : Type} (value : Option α) (key : String) (encode : α → Json)
    (payload : List (String × Json)) : List (String × Json) :=
  match value with
  | some v => payload ++ [(key, encode v)]
  | none => payload

/-! Job-completion poller (`waitForJobCompletion`), identical in both server
copies. -/

/-- Result of a completed poll: the final job record, the raw response it
came from, and how many job-fetch network calls were made. -/
structure PollOutcome where
  job : Json
  rawResponse : Option Json
  fetchCount : Nat

/-- Timeout error message of the poller. -/
def timeoutMessage (jobId : String) (timeoutMs : Nat) : String :=
  s!"Job {jobId} did not reach a terminal status within {timeoutMs}ms."

/-- The poller's while-loop. `elapsed` is the idealized clock (it advances by
`pollIntervalMs` per iteration, the iteration's one sleep), `n` numbers the
fetches, and `fuel` bounds recursion; `timeoutMs` units of fuel never run out
when the interval is positive, and the deadline check `Date.now() < deadline`
is `elapsed < timeoutMs`, evaluated before each fetch exactly as in the
source. -/
def pollLoop (jobId : String) (fetches : Nat → Option Json)
    (pollIntervalMs timeoutMs : Nat) : Nat → Nat → Nat → Except String PollOutcome
  | fuel, elapsed, n =>
    if elapsed < timeoutMs then
      match fuel with
      | 0 => .error "poll loop ran out of fuel"
      | fuel' + 1 =>
        if isTerminalStatus (normalizeStatus
            (readString (some (pickJob (fetches n))) ["status"])) then
          .ok ⟨pickJob (fetches n), fetches n, n + 1⟩
        else pollLoop jobId fetches pollIntervalMs timeoutMs fuel' (elapsed + pollIntervalMs) (n + 1)
    else .error (timeoutMessage jobId timeoutMs)

/-- Model of `waitForJobCompletion`: coerce the initial job to an object,
return it immediately (zero fetches, raw response `{job: initialJob}`) when
its normalized status is terminal, else enter the poll loop with the deadline
computed once. -/
def waitForJobCompletion (initialJob : Json) (jobId : String)
    (fetches : Nat → Option Json) (pollIntervalMs timeoutMs : Nat) :
    Except String PollOutcome :=
  let initJob := (asObject initialJob).getD (.obj [])
  let initialStatus := normalizeStatus (readString (some initJob) ["status"])
  if isTerminalStatus initialStatus then
    .ok ⟨initJob, some (.obj [("job", initJob)]), 0⟩
  else
    pollLoop jobId fetches pollIntervalMs timeoutMs timeoutMs 0 0

/-! Newer server copy (the document following the client in `kreaClient.ts`):
tools `krea_generate_image` and `krea_upscale_image`. -/

namespace Srv

/-- Upscale mode: standard, generative or bloom. -/
inductive UpscaleMode where
  | standard
  | generative
  | bloom
deriving DecidableEq

/-- Printed form of a mode, as template literals render it. -/
def UpscaleMode.toStr : UpscaleMode → String
  | .standard => "standard"
  | .generative => "generative"
  | .bloom => "bloom"

instance : ToString UpscaleMode := ⟨UpscaleMode.toStr⟩

/-- Model of `UpscaleInput` (polling controls are passed separately to the
orchestration model). A `none` field is an argument the caller did not
supply. -/
structure UpscaleInput where
  mode : Option UpscaleMode := none
  image_url : String
  width : Nat
  height : Nat
  model : Option String := none
  batch_size : Option Nat := none
  seed : Option Nat := none
  prompt : Option String := none
  output_format : Option String := none
  subject_detection : Option String := none
  face_enhancement : Option Bool := none
  face_enhancement_creativity : Option ℚ := none
  face_enhancement_strength : Option ℚ := none
  crop_to_fill : Option Bool := none
  upscaling_activated : Option Bool := none
  image_scaling_factor : Option ℚ := none
  sharpen : Option ℚ := none
  denoise : Option ℚ := none
  fix_compression : Option ℚ := none
  strength : Option ℚ := none
  creativity : Option Nat := none
  texture : Option Nat := none
  detail : Option ℚ := none
  face_preservation : Option Bool := none
  color_preservation : Option Bool := none

/-- The allowed standard-mode upscale models (`UPSCALE_STANDARD_MODELS`). -/
def UPSCALE_STANDARD_MODELS : List String :=
  ["Standard V2", "Low Resolution V2", "CGI", "High Fidelity V2", "Text Refine"]

/-- The allowed generative-mode upscale models (`UPSCALE_GENERATIVE_MODELS`). -/
def UPSCALE_GENERATIVE_MODELS : List String :=
  ["Redefine", "Recovery", "Recovery V2", "Reimagine"]

/-- Model of `resolveUpscaleModel`: mode-scoped model-name resolution with
per-mode defaults; an out-of-set name for the active mode throws. -/
def resolveUpscaleModel (mode : UpscaleMode) (model : Option String) : Except String String :=
  match mode with
  | .standard =>
    let selected := model.getD "Standard V2"
    if UPSCALE_STANDARD_MODELS.contains selected then .ok selected
    else .error ("Invalid standard model \"" ++ selected ++ "\".")
  | .generative =>
    let selected := model.getD "Redefine"
    if UPSCALE_GENERATIVE_MODELS.contains selected then .ok selected
    else .error ("Invalid generative model \"" ++ selected ++ "\".")
  | .bloom =>
    let selected := model.getD "Reimagine"
    if selected = "Reimagine" then .ok selected
    else .error "Bloom mode supports only model \"Reimagine\"."

/-- Endpoint path for a mode (the conditional at the top of
`buildUpscaleRequest`). -/
def upscaleEndpoint : UpscaleMode → String
  | .standard => "/generate/enhance/topaz/standard-enhance"
  | .generative => "/generate/enhance/topaz/generative-enhance"
  | .bloom => "/generate/enhance/topaz/bloom-enhance"

/-- Maximum width/height for a mode: 10000 for bloom, 32000 otherwise. -/
def maxDimensionFor (mode : UpscaleMode) : Nat :=
  if mode = .bloom then 10000 else 32000

/-- Dimension-violation error message of `buildUpscaleRequest`. -/
def dimensionMessage (mode : UpscaleMode) (width height : Nat) : String :=
  let m := mode.toStr
  let mx := maxDimensionFor mode
  s!"Mode {m} supports up to {mx}x{mx}. Received {width}x{height}."

/-- One mode-gated optional parameter of `buildUpscaleRequest`: absent
parameters are skipped, a present parameter first throws when its gate
condition holds (the `if (mode ...) throw` guarding each block), else is
added to the payload. -/
def gatedField {α : Type} (violatesGate : Prop) [Decidable violatesGate]
    (errMsg : String) (value : Option α) (key : String) (encode : α → Json)
    (payload : List (String × Json)) : Except String (List (String × Json)) :=
  match value with
  | some v => if violatesGate then .error errMsg else .ok (payload ++ [(key, encode v)])
  | none => .ok payload

/-- Result of `buildUpscaleRequest`. -/
structure UpscaleRequest where
  mode : UpscaleMode
  endpoint : String
  normalizedModel : String
  payload : List (String × Json)

/-- Model of `buildUpscaleRequest`, with every check in source order: mode
default, endpoint, dimension ceiling, model resolution, base payload, the
ungated optional fields, then the thirteen mode-gated blocks (sharpen,
denoise, subject_detection, face_enhancement, face_enhancement_creativity,
face_enhancement_strength, strength, fix_compression, texture, detail,
creativity with its generative 1–6 range, face_preservation,
color_preservation). The first violated constraint throws, aborting the
build. -/
def buildUpscaleRequest (input : UpscaleInput) : Except String UpscaleRequest := do
  let mode := input.mode.getD .standard
  let endpoint := upscaleEndpoint mode
  let maxDimension := maxDimensionFor mode
  if maxDimension < input.width ∨ maxDimension < input.height then
    throw (dimensionMessage mode input.width input.height)
  let normalizedModel ← resolveUpscaleModel mode input.model
  let payload : List (String × Json) :=
    [("width", .num input.width), ("height", .num input.height),
     ("image_url", .str input.image_url), ("model", .str normalizedModel)]
  let payload := KreaMcp.optField input.batch_size "batchSize" (fun n => .num n) payload
  let payload := KreaMcp.optField input.seed "seed" (fun n => .num n) payload
  let payload := KreaMcp.optField input.prompt "prompt" Json.str payload
  let payload := KreaMcp.optField input.output_format "output_format" Json.str payload
  let payload := KreaMcp.optField input.crop_to_fill "crop_to_fill" Json.bool payload
  let payload := KreaMcp.optField input.upscaling_activated "upscaling_activated" Json.bool payload
  let payload := KreaMcp.optField input.image_scaling_factor "image_scaling_factor" Json.num payload
  let payload ← gatedField (mode = .bloom) "sharpen is not supported in bloom mode."
    input.sharpen "sharpen" Json.num payload
  let payload ← gatedField (mode = .bloom) "denoise is not supported in bloom mode."
    input.denoise "denoise" Json.num payload
  let payload ← gatedField (mode = .bloom) "subject_detection is not supported in bloom mode."
    input.subject_detection "subject_detection" Json.str payload
  let payload ← gatedField (mode = .bloom) "face_enhancement is not supported in bloom mode."
    input.face_enhancement "face_enhancement" Json.bool payload
  let payload ← gatedField (mode = .bloom)
    "face_enhancement_creativity is not supported in bloom mode."
    input.face_enhancement_creativity "face_enhancement_creativity" Json.num payload
  let payload ← gatedField (mode = .bloom)
    "face_enhancement_strength is not supported in bloom mode."
    input.face_enhancement_strength "face_enhancement_strength" Json.num payload
  let payload ← gatedField (mode ≠ .standard) "strength is only supported in standard mode."
    input.strength "strength" Json.num payload
  let payload ← gatedField (mode ≠ .standard) "fix_compression is only supported in standard mode."
    input.fix_compression "fix_compression" Json.num payload
  let payload ← gatedField (mode ≠ .generative) "texture is only supported in generative mode."
    input.texture "texture" (fun n => .num n) payload
  let payload ← gatedField (mode ≠ .generative) "detail is only supported in generative mode."
    input.detail "detail" Json.num payload
  let payload ←
    match input.creativity with
    | some c =>
      if mode = .standard then
        throw "creativity is only supported in generative or bloom mode."
      else if mode = .generative ∧ 6 < c then
        throw "generative mode supports creativity from 1 to 6."
      else pure (payload ++ [("creativity", Json.num c)])
    | none => pure payload
  let payload ← gatedField (mode ≠ .bloom) "face_preservation is only supported in bloom mode."
    input.face_preservation "face_preservation" Json.bool payload
  let payload ← gatedField (mode ≠ .bloom) "color_preservation is only supported in bloom mode."
    input.color_preservation "color_preservation" Json.bool payload
  return ⟨mode, endpoint, normalizedModel, payload⟩

/-- A minimal valid upscale input (required fields only), used to exercise
each gate in isolation in the claims. -/
def baseUpscale : UpscaleInput :=
  { image_url := "https://example.test/in.png", width := 1000, height := 1000 }

/-- Model of `GenerateInput` of the newer copy (polling controls passed
separately). -/
structure GenerateInput where
  model : String
  prompt : String
  width : Option Nat := none
  height : Option Nat := none
  seed : Option Nat := none
  batch_size : Option Nat := none
  guidance_scale : Option ℚ := none
  num_inference_steps : Option Nat := none
  negative_prompt : Option String := none
  size : Option String := none
  style : Option String := none
  reference_image : Option String := none
  reference_images : Option (List String) := none
  image_url : Option String := none
  sync_mode : Option Bool := none

/-- Split a character list at every occurrence of `c` (n occurrences give
n+1 segments, as `String.split` does). -/
def splitOnChar (c : Char) : List Char → List (List Char)
  | [] => [[]]
  | a :: rest =>
    let segments := splitOnChar c rest
    if a = c then [] :: segments
    else
      match segments with
      | seg :: segs => (a :: seg) :: segs
      | [] => [[a]]

/-- One `[1-9][0-9]*` group of the size regex: a nonzero digit followed by
digits. -/
def isSizeNum : List Char → Bool
  | [] => false
  | c :: rest => c.isDigit && c ≠ '0' && rest.all Char.isDigit

/-- Decimal value of a digit list, as `Number` reads the regex groups. -/
def digitsToNat (l : List Char) : Nat :=
  l.foldl (fun acc c => acc * 10 + (c.toNat - 48)) 0

/-- Model of `parseSize` of the newer copy: a falsy (absent or empty) size
yields undefined; otherwise the string must match
`^([1-9][0-9]*)x([1-9][0-9]*)$` — exactly one "x" with a nonzero-led digit
group on each side — and both groups are read as numbers. -/
def parseSize (size : Option String) : Option (Nat × Nat) :=
  match size with
  | none => none
  | some s =>
    if s.data = [] then none
    else
      match splitOnChar 'x' s.data with
      | [w, h] =>
        if isSizeNum w && isSizeNum h then some (digitsToNat w, digitsToNat h)
        else none
      | _ => none

/-- Width/height resolution of the newer `buildPayload`, one axis: explicit
input value, else the value parsed from the size string, else the model's
default — the default only when the axis is required and a default exists;
otherwise the key is not added. -/
def dimensionField (explicit : Option Nat) (fromSize : Option Nat)
    (required : Bool) (dflt : Option Nat) (key : String)
    (payload : List (String × Json)) : List (String × Json) :=
  match explicit with
  | some v => payload ++ [(key, .num v)]
  | none =>
    match fromSize with
    | some v => payload ++ [(key, .num v)]
    | none =>
      match dflt with
      | some d => if required then payload ++ [(key, .num d)] else payload
      | none => payload

/-- The optional-scalar tail of the newer `buildPayload`: everything the
source adds after the width/height blocks, in source order, including the
qwen-specific key renamings (`cfg_scale`/`num_inference_steps` for
`qwen_image`, `guidance_scale_flux`/`steps` otherwise) and the
qwen-only `negative_prompt`. -/
def payloadTail (input : GenerateInput) (payload : List (String × Json)) :
    List (String × Json) :=
  let payload := KreaMcp.optField input.seed "seed" (fun n => .num n) payload
  let payload := KreaMcp.optField input.batch_size "batchSize" (fun n => .num n) payload
  let payload := KreaMcp.optField input.guidance_scale
    (if input.model = "qwen_image" then "cfg_scale" else "guidance_scale_flux") Json.num payload
  let payload := KreaMcp.optField input.num_inference_steps
    (if input.model = "qwen_image" then "num_inference_steps" else "steps")
    (fun n => .num n) payload
  let payload := KreaMcp.optField
    (if input.model = "qwen_image" then input.negative_prompt else none)
    "negative_prompt" Json.str payload
  let payload := KreaMcp.optField input.style "styles" (fun s => .arr [.str s]) payload
  let payload := KreaMcp.optField input.reference_image "styleImages"
    (fun s => .arr [.str s]) payload
  let payload := KreaMcp.optField input.reference_images "referenceImages"
    (fun l => .arr (l.map .str)) payload
  let payload := KreaMcp.optField input.image_url "imageUrl" Json.str payload
  payload

/-- Model of the newer `buildPayload`: fixed payload merged with the prompt,
the parsed size, the two independent dimension resolutions, then the
optional tail. -/
def buildPayload (input : GenerateInput) (model : ModelDefinition) :
    List (String × Json) :=
  let payload := (model.fixedPayload.getD []) ++ [("prompt", Json.str input.prompt)]
  let size := parseSize input.size
  let payload := dimensionField input.width (size.map Prod.fst)
    (model.requiredFields.contains .width) model.defaultWidth "width" payload
  let payload := dimensionField input.height (size.map Prod.snd)
    (model.requiredFields.contains .height) model.defaultHeight "height" payload
  payloadTail input payload

/-- Model of `validateInputByModel` (identical text in both copies):
accumulate every missing required field, then throw one error naming them
all, or succeed. -/
def validateInputByModel (input : GenerateInput) (model : ModelDefinition) :
    Except String Unit :=
  let missing : List String :=
    model.requiredFields.foldl
      (fun acc field =>
        match field with
        | .prompt => acc
        | .width =>
          if input.width = none ∧ model.defaultWidth = none then acc ++ ["width"] else acc
        | .height =>
          if input.height = none ∧ model.defaultHeight = none then acc ++ ["height"] else acc
        | .referenceImages =>
          if input.reference_images = none ∨ input.reference_images = some [] then
            acc ++ ["reference_images"]
          else acc
        | .imageUrl =>
          if input.image_url = none ∨ input.image_url = some "" then
            acc ++ ["image_url"]
          else acc)
      []
  if missing = [] then .ok ()
  else
    .error ("Missing required fields for model " ++ input.model ++ ": " ++
      String.intercalate ", " missing ++ ". Model requires: " ++
      describeRequiredFields model.requiredFields)

/-- Job-id extraction of the newer copy:
`readString(createJob, "id") ?? readString(createJob, "job_id")` — the second
field is consulted only when the first read is undefined. -/
def extractJobId (createJob : Json) : Option String :=
  match readString (some createJob) ["id"] with
  | some s => some s
  | none => readString (some createJob) ["job_id"]

/-- MissingJobId error message of the newer copy, with the stringified raw
create response interpolated. -/
def missingJobIdMsg (createResponse : Option Json) : String :=
  "Krea response does not include job id. Response: " ++
    jsTemplate (stringifyUnknown createResponse)

/-- Structured output of a completed upscale invocation (the fields of the
handler's `structuredContent` that the embedding tracks). -/
structure UpscaleOutput where
  mode : UpscaleMode
  model : String
  endpoint : String
  payload_sent : List (String × Json)
  job_id : String
  status : String
  image_urls : List String
  error : Option Json
  final_job : Json
  final_job_response : Option Json

/-- Orchestration of `krea_upscale_image` with `wait_for_completion` true:
build (validation first), submit (the create response is the oracle argument
`createResponse`), extract the job id — a missing or falsy-empty id throws
MissingJobId before any polling — then poll and extract result URLs, status
and error. -/
def upscaleInvoke (input : UpscaleInput) (createResponse : Option Json)
    (fetches : Nat → Option Json) (pollIntervalMs timeoutMs : Nat) :
    Except String UpscaleOutput := do
  let req ← buildUpscaleRequest input
  let createJob := pickJob createResponse
  match extractJobId createJob with
  | none => throw (missingJobIdMsg createResponse)
  | some jobId =>
    if jobId = "" then throw (missingJobIdMsg createResponse)
    else do
      let fin ← waitForJobCompletion createJob jobId fetches pollIntervalMs timeoutMs
      let imageUrls := extractHttpUrlsU (readUnknown (some fin.job) ["result"])
      let status := normalizeStatus (readString (some fin.job) ["status"])
      let err := readUnknown (some fin.job) ["error"]
      return ⟨req.mode, req.normalizedModel, req.endpoint, req.payload, jobId, status,
        imageUrls, err, fin.job, fin.rawResponse⟩

/-- Structured output of a completed generate invocation. -/
structure GenerateOutput where
  model : String
  endpoint : String
  payload_sent : List (String × Json)
  job_id : String
  status : String
  image_urls : List String
  error : Option Json
  final_job : Json
  final_job_response : Option Json

/-- Orchestration of the newer `krea_generate_image` with
`wait_for_completion` true: validate, build the payload, submit, extract the
job id (id then job_id; missing or falsy-empty throws MissingJobId before
any polling), poll, then read URLs from the job's `result` field. -/
def generateInvoke (input : GenerateInput) (model : ModelDefinition)
    (createResponse : Option Json) (fetches : Nat → Option Json)
    (pollIntervalMs timeoutMs : Nat) : Except String GenerateOutput := do
  let _ ← validateInputByModel input model
  let payload := buildPayload input model
  let createJob := pickJob createResponse
  match extractJobId createJob with
  | none => throw (missingJobIdMsg createResponse)
  | some jobId =>
    if jobId = "" then throw (missingJobIdMsg createResponse)
    else do
      let fin ← waitForJobCompletion createJob jobId fetches pollIntervalMs timeoutMs
      let imageUrls := extractHttpUrlsU (readUnknown (some fin.job) ["result"])
      let status := normalizeStatus (readString (some fin.job) ["status"])
      let err := readUnknown (some fin.job) ["error"]
      return ⟨input.model, model.endpoint, payload, jobId, status, imageUrls, err,
        fin.job, fin.rawResponse⟩

end Srv

/-! Older server copy (the first document of `index.ts`): the generate tool
only. Its `waitForJobCompletion`, `pickJob`, `readUnknown`, `readString`,
`asObject` and `validateInputByModel` are textually identical to the newer
copy's and are shared above; the differences modeled here are its
`buildPayload` (no size parsing, no key renaming), its job-id extraction
(only `id` is read) and its result path (`data.output`). -/

namespace Legacy

/-- Model of `GenerateInput` of the older copy (no `batch_size`). -/
structure GenerateInput where
  model : String
  prompt : String
  width : Option Nat := none
  height : Option Nat := none
  seed : Option Nat := none
  guidance_scale : Option ℚ := none
  num_inference_steps : Option Nat := none
  negative_prompt : Option String := none
  size : Option String := none
  style : Option String := none
  reference_image : Option String := none
  reference_images : Option (List String) := none
  image_url : Option String := none
  sync_mode : Option Bool := none

/-- Width/height resolution of the older `buildPayload`, one axis: explicit
input value, else the model default when the axis is required and a default
exists; there is no size-string step. -/
def dimensionField (explicit : Option Nat) (required : Bool) (dflt : Option Nat)
    (key : String) (payload : List (String × Json)) : List (String × Json) :=
  match explicit with
  | some v => payload ++ [(key, .num v)]
  | none =>
    match dflt with
    | some d => if required then payload ++ [(key, .num d)] else payload
    | none => payload

/-- Model of the older `buildPayload`: fixed payload merged with the prompt,
the two dimension resolutions (explicit else gated default), then every
optional scalar passed through under its own key — `guidance_scale`,
`num_inference_steps` and `negative_prompt` unrenamed and ungated, the size
string verbatim under `size`, `style` under `style`, `reference_image`
under `referenceImage`, plus `sync_mode`. -/
def buildPayload (input : GenerateInput) (model : ModelDefinition) :
    List (String × Json) :=
  let payload := (model.fixedPayload.getD []) ++ [("prompt", Json.str input.prompt)]
  let payload := dimensionField input.width
    (model.requiredFields.contains .width) model.defaultWidth "width" payload
  let payload := dimensionField input.height
    (model.requiredFields.contains .height) model.defaultHeight "height" payload
  let payload := KreaMcp.optField input.seed "seed" (fun n => .num n) payload
  let payload := KreaMcp.optField input.guidance_scale "guidance_scale" Json.num payload
  let payload := KreaMcp.optField input.num_inference_steps "num_inference_steps"
    (fun n => .num n) payload
  let payload := KreaMcp.optField input.negative_prompt "negative_prompt" Json.str payload
  let payload := KreaMcp.optField input.size "size" Json.str payload
  let payload := KreaMcp.optField input.style "style" Json.str payload
  let payload := KreaMcp.optField input.reference_image "referenceImage" Json.str payload
  let payload := KreaMcp.optField input.reference_images "referenceImages"
    (fun l => .arr (l.map .str)) payload
  let payload := KreaMcp.optField input.image_url "imageUrl" Json.str payload
  let payload := KreaMcp.optField input.sync_mode "sync_mode" Json.bool payload
  payload

/-- Model of `validateInputByModel` as instantiated in the older copy (the
function text is identical to the newer copy's). -/
def validateInputByModel (input : GenerateInput) (model : ModelDefinition) :
    Except String Unit :=
  let missing : List String :=
    model.requiredFields.foldl
      (fun acc field =>
        match field with
        | .prompt => acc
        | .width =>
          if input.width = none ∧ model.defaultWidth = none then acc ++ ["width"] else acc
        | .height =>
          if input.height = none ∧ model.defaultHeight = none then acc ++ ["height"] else acc
        | .referenceImages =>
          if input.reference_images = none ∨ input.reference_images = some [] then
            acc ++ ["reference_images"]
          else acc
        | .imageUrl =>
          if input.image_url = none ∨ input.image_url = some "" then
            acc ++ ["image_url"]
          else acc)
      []
  if missing = [] then .ok ()
  else
    .error ("Missing required fields for model " ++ input.model ++ ": " ++
      String.intercalate ", " missing ++ ". Model requires: " ++
      describeRequiredFields model.requiredFields)

/-- Job-id extraction of the older copy: only `readString(createJob, "id")`
is consulted; `job_id` is never read. -/
def extractJobId (createJob : Json) : Option String :=
  readString (some createJob) ["id"]

/-- MissingJobId error message of the older copy (note "job.id"). -/
def missingJobIdMsg (createResponse : Option Json) : String :=
  "Krea response does not include job.id. Response: " ++
    jsTemplate (stringifyUnknown createResponse)

/-- Structured output of a completed generate invocation of the older copy. -/
structure GenerateOutput where
  model : String
  endpoint : String
  payload_sent : List (String × Json)
  job_id : String
  status : String
  image_urls : List String
  error : Option Json
  final_job : Json
  final_job_response : Option Json

/-- Orchestration of the older `krea_generate_image` with
`wait_for_completion` true: validate, build, submit, extract the job id
(only `id`; missing or falsy-empty throws MissingJobId before any polling),
poll, then read URLs from the job's `data.output` path. -/
def generateInvoke (input : GenerateInput) (model : ModelDefinition)
    (createResponse : Option Json) (fetches : Nat → Option Json)
    (pollIntervalMs timeoutMs : Nat) : Except String GenerateOutput := do
  let _ ← validateInputByModel input model
  let payload := buildPayload input model
  let createJob := pickJob createResponse
  match extractJobId createJob with
  | none => throw (missingJobIdMsg createResponse)
  | some jobId =>
    if jobId = "" then throw (missingJobIdMsg createResponse)
    else do
      let fin ← waitForJobCompletion createJob jobId fetches pollIntervalMs timeoutMs
      let imageUrls := extractHttpUrlsU (readUnknown (some fin.job) ["data", "output"])
      let status := normalizeStatus (readString (some fin.job) ["status"])
      let err := readUnknown (some fin.job) ["error"]
      return ⟨input.model, model.endpoint, payload, jobId, status, imageUrls, err,
        fin.job, fin.rawResponse⟩

end Legacy

end KreaMcp

namespace KreaMcp

theorem except_bind_eq_ok {ε α β : Type} {x : Except ε α} {f : α → Except ε β} {r : β} :
    (x >>= f) = .ok r ↔ ∃ a, x = .ok a ∧ f a = .ok r := by
  cases x <;> simp [Bind.bind, Except.bind]

namespace Srv

theorem gatedField_ok_of_gate {α : Type} {g : Prop} [Decidable g] {m key : String}
    {enc : α → Json} {p q : List (String × Json)} {v : Option α}
    (hg : g) (h : gatedField g m v key enc p = .ok q) : v = none := by
  cases v with
  | none => rfl
  | some a => simp [gatedField, hg] at h

set_option maxHeartbeats 1000000 in
theorem buildUpscale_ok_gates_std (input : UpscaleInput) (r : UpscaleRequest)
    (hm : input.mode.getD .standard = UpscaleMode.standard)
    (h : buildUpscaleRequest input = .ok r) :
    input.width ≤ 32000 ∧ input.height ≤ 32000 ∧
    r.mode = .standard ∧ r.endpoint = upscaleEndpoint .standard ∧
    input.texture = none ∧ input.detail = none ∧ input.creativity = none ∧
    input.face_preservation = none ∧ input.color_preservation = none := by
  rw [buildUpscaleRequest] at h
  simp only [hm] at h
  split at h
  case isTrue hviol => simp [Bind.bind, Except.bind, throw, throwThe, MonadExceptOf.throw] at h
  case isFalse hviol =>
  rw [except_bind_eq_ok] at h; obtain ⟨u, hu, h⟩ := h
  rw [except_bind_eq_ok] at h; obtain ⟨nm, hnm, h⟩ := h
  rw [except_bind_eq_ok] at h; obtain ⟨p2, hp2, h⟩ := h
  rw [except_bind_eq_ok] at h; obtain ⟨p3, hp3, h⟩ := h
  rw [except_bind_eq_ok] at h; obtain ⟨p4, hp4, h⟩ := h
  rw [except_bind_eq_ok] at h; obtain ⟨p5, hp5, h⟩ := h
  rw [except_bind_eq_ok] at h; obtain ⟨p6, hp6, h⟩ := h
  rw [except_bind_eq_ok] at h; obtain ⟨p7, hp7, h⟩ := h
  rw [except_bind_eq_ok] at h; obtain ⟨p8, hp8, h⟩ := h
  rw [except_bind_eq_ok] at h; obtain ⟨p9, hp9, h⟩ := h
  rw [except_bind_eq_ok] at h; obtain ⟨p10, hp10, h⟩ := h
  rw [except_bind_eq_ok] at h; obtain ⟨p11, hp11, h⟩ := h
  have ht : input.texture = none := gatedField_ok_of_gate (by decide) hp10
  have hd : input.detail = none := gatedField_ok_of_gate (by decide) hp11
  rcases hcv : input.creativity with _ | c <;> rw [hcv] at h
  case some =>
    simp [Bind.bind, Except.bind, throw, throwThe, MonadExceptOf.throw] at h
  case none =>
  rw [except_bind_eq_ok] at h; obtain ⟨y, hy, h⟩ := h
  rw [except_bind_eq_ok] at h; obtain ⟨p13, hp13, h⟩ := h
  rw [except_bind_eq_ok] at h; obtain ⟨p14, hp14, h⟩ := h
  have hfp : input.face_preservation = none := gatedField_ok_of_gate (by decide) hp13
  have hcp : input.color_preservation = none := gatedField_ok_of_gate (by decide) hp14
  simp only [pure, Except.pure, Except.ok.injEq] at h
  simp [Srv.maxDimensionFor] at hviol
  refine ⟨by omega, by omega, ?_, ?_, ht, hd, rfl, hfp, hcp⟩ <;> rw [← h]

set_option maxHeartbeats 1000000 in
theorem buildUpscale_ok_gates_gen (input : UpscaleInput) (r : UpscaleRequest)
    (hm : input.mode.getD .standard = UpscaleMode.generative)
    (h : buildUpscaleRequest input = .ok r) :
    input.width ≤ 32000 ∧ input.height ≤ 32000 ∧
    r.mode = .generative ∧ r.endpoint = upscaleEndpoint .generative ∧
    input.strength = none ∧ input.fix_compression = none ∧
    (∀ c, input.creativity = some c → c ≤ 6) ∧
    input.face_preservation = none ∧ input.color_preservation = none := by
  rw [buildUpscaleRequest] at h
  simp only [hm] at h
  split at h
  case isTrue hviol => simp [Bind.bind, Except.bind, throw, throwThe, MonadExceptOf.throw] at h
  case isFalse hviol =>
  rw [except_bind_eq_ok] at h; obtain ⟨u, hu, h⟩ := h
  rw [except_bind_eq_ok] at h; obtain ⟨nm, hnm, h⟩ := h
  rw [except_bind_eq_ok] at h; obtain ⟨p2, hp2, h⟩ := h
  rw [except_bind_eq_ok] at h; obtain ⟨p3, hp3, h⟩ := h
  rw [except_bind_eq_ok] at h; obtain ⟨p4, hp4, h⟩ := h
  rw [except_bind_eq_ok] at h; obtain ⟨p5, hp5, h⟩ := h
  rw [except_bind_eq_ok] at h; obtain ⟨p6, hp6, h⟩ := h
  rw [except_bind_eq_ok] at h; obtain ⟨p7, hp7, h⟩ := h
  rw [except_bind_eq_ok] at h; obtain ⟨p8, hp8, h⟩ := h
  rw [except_bind_eq_ok] at h; obtain ⟨p9, hp9, h⟩ := h
  rw [except_bind_eq_ok] at h; obtain ⟨p10, hp10, h⟩ := h
  rw [except_bind_eq_ok] at h; obtain ⟨p11, hp11, h⟩ := h
  have hst : input.strength = none := gatedField_ok_of_gate (by decide) hp8
  have hfx : input.fix_compression = none := gatedField_ok_of_gate (by decide) hp9
  simp [Srv.maxDimensionFor] at hviol
  rcases hcv : input.creativity with _ | c <;> simp only [hcv] at h
  case none =>
    rw [except_bind_eq_ok] at h; obtain ⟨y, hy, h⟩ := h
    rw [except_bind_eq_ok] at h; obtain ⟨p13, hp13, h⟩ := h
    rw [except_bind_eq_ok] at h; obtain ⟨p14, hp14, h⟩ := h
    have hfp : input.face_preservation = none := gatedField_ok_of_gate (by decide) hp13
    have hcp : input.color_preservation = none := gatedField_ok_of_gate (by decide) hp14
    simp only [pure, Except.pure, Except.ok.injEq] at h
    refine ⟨by omega, by omega, ?_, ?_, hst, hfx, by simp [hcv], hfp, hcp⟩ <;> rw [← h]
  case some =>
    rw [if_neg (by decide)] at h
    split at h
    case isTrue hgt =>
      simp [Bind.bind, Except.bind, throw, throwThe, MonadExceptOf.throw] at h
    case isFalse hle =>
    rw [except_bind_eq_ok] at h; obtain ⟨y, hy, h⟩ := h
    rw [except_bind_eq_ok] at h; obtain ⟨p13, hp13, h⟩ := h
    rw [except_bind_eq_ok] at h; obtain ⟨p14, hp14, h⟩ := h
    have hfp : input.face_preservation = none := gatedField_ok_of_gate (by decide) hp13
    have hcp : input.color_preservation = none := gatedField_ok_of_gate (by decide) hp14
    simp only [pure, Except.pure, Except.ok.injEq] at h
    simp only [true_and] at hle
    refine ⟨by omega, by omega, ?_, ?_, hst, hfx, ?_, hfp, hcp⟩
    · rw [← h]
    · rw [← h]
    · intro c' hc'
      have hcc : c = c' := Option.some.inj hc'
      omega

set_option maxHeartbeats 1000000 in
theorem buildUpscale_ok_gates_bloom (input : UpscaleInput) (r : UpscaleRequest)
    (hm : input.mode.getD .standard = UpscaleMode.bloom)
    (h : buildUpscaleRequest input = .ok r) :
    input.width ≤ 10000 ∧ input.height ≤ 10000 ∧
    r.mode = .bloom ∧ r.endpoint = upscaleEndpoint .bloom ∧
    input.sharpen = none ∧ input.denoise = none ∧ input.subject_detection = none ∧
    input.face_enhancement = none ∧ input.face_enhancement_creativity = none ∧
    input.face_enhancement_strength = none ∧
    input.strength = none ∧ input.fix_compression = none ∧
    input.texture = none ∧ input.detail = none := by
  rw [buildUpscaleRequest] at h
  simp only [hm] at h
  split at h
  case isTrue hviol => simp [Bind.bind, Except.bind, throw, throwThe, MonadExceptOf.throw] at h
  case isFalse hviol =>
  rw [except_bind_eq_ok] at h; obtain ⟨u, hu, h⟩ := h
  rw [except_bind_eq_ok] at h; obtain ⟨nm, hnm, h⟩ := h
  rw [except_bind_eq_ok] at h; obtain ⟨p2, hp2, h⟩ := h
  rw [except_bind_eq_ok] at h; obtain ⟨p3, hp3, h⟩ := h
  rw [except_bind_eq_ok] at h; obtain ⟨p4, hp4, h⟩ := h
  rw [except_bind_eq_ok] at h; obtain ⟨p5, hp5, h⟩ := h
  rw [except_bind_eq_ok] at h; obtain ⟨p6, hp6, h⟩ := h
  rw [except_bind_eq_ok] at h; obtain ⟨p7, hp7, h⟩ := h
  rw [except_bind_eq_ok] at h; obtain ⟨p8, hp8, h⟩ := h
  rw [except_bind_eq_ok] at h; obtain ⟨p9, hp9, h⟩ := h
  rw [except_bind_eq_ok] at h; obtain ⟨p10, hp10, h⟩ := h
  rw [except_bind_eq_ok] at h; obtain ⟨p11, hp11, h⟩ := h
  have h2 : input.sharpen = none := gatedField_ok_of_gate trivial hp2
  have h3 : input.denoise = none := gatedField_ok_of_gate trivial hp3
  have h4 : input.subject_detection = none := gatedField_ok_of_gate trivial hp4
  have h5 : input.face_enhancement = none := gatedField_ok_of_gate trivial hp5
  have h6 : input.face_enhancement_creativity = none := gatedField_ok_of_gate trivial hp6
  have h7 : input.face_enhancement_strength = none := gatedField_ok_of_gate trivial hp7
  have h8 : input.strength = none := gatedField_ok_of_gate (by decide) hp8
  have h9 : input.fix_compression = none := gatedField_ok_of_gate (by decide) hp9
  have h10 : input.texture = none := gatedField_ok_of_gate (by decide) hp10
  have h11 : input.detail = none := gatedField_ok_of_gate (by decide) hp11
  simp [Srv.maxDimensionFor] at hviol
  rcases hcv : input.creativity with _ | c <;> simp only [hcv] at h
  case none =>
    rw [except_bind_eq_ok] at h; obtain ⟨y, hy, h⟩ := h
    rw [except_bind_eq_ok] at h; obtain ⟨p13, hp13, h⟩ := h
    rw [except_bind_eq_ok] at h; obtain ⟨p14, hp14, h⟩ := h
    simp only [pure, Except.pure, Except.ok.injEq] at h
    refine ⟨by omega, by omega, ?_, ?_, h2, h3, h4, h5, h6, h7, h8, h9, h10, h11⟩ <;> rw [← h]
  case some =>
    rw [if_neg (by decide), if_neg (by simp)] at h
    rw [except_bind_eq_ok] at h; obtain ⟨y, hy, h⟩ := h
    rw [except_bind_eq_ok] at h; obtain ⟨p13, hp13, h⟩ := h
    rw [except_bind_eq_ok] at h; obtain ⟨p14, hp14, h⟩ := h
    simp only [pure, Except.pure, Except.ok.injEq] at h
    refine ⟨by omega, by omega, ?_, ?_, h2, h3, h4, h5, h6, h7, h8, h9, h10, h11⟩ <;> rw [← h]

theorem buildUpscale_dim_error (input : UpscaleInput)
    (hviol : maxDimensionFor (input.mode.getD .standard) < input.width ∨
             maxDimensionFor (input.mode.getD .standard) < input.height) :
    buildUpscaleRequest input =
      .error (dimensionMessage (input.mode.getD .standard) input.width input.height) := by
  rw [buildUpscaleRequest]
  rw [if_pos hviol]
  simp [Bind.bind, Except.bind, throw, throwThe, MonadExceptOf.throw]

theorem upscaleInvoke_of_build_error (input : UpscaleInput) (e : String)
    (resp : Option Json) (fetches : Nat → Option Json) (ival tmo : Nat)
    (h : buildUpscaleRequest input = .error e) :
    upscaleInvoke input resp fetches ival tmo = .error e := by
  rw [upscaleInvoke]
  simp [h, Bind.bind, Except.bind]

theorem upscaleInvoke_missing_id (input : UpscaleInput) (req : UpscaleRequest)
    (resp : Option Json) (fetches : Nat → Option Json) (ival tmo : Nat)
    (hb : buildUpscaleRequest input = .ok req)
    (hid : extractJobId (pickJob resp) = none) :
    upscaleInvoke input resp fetches ival tmo = .error (missingJobIdMsg resp) := by
  rw [upscaleInvoke]
  simp [hb, hid, Bind.bind, Except.bind, throw, throwThe, MonadExceptOf.throw]

theorem generateInvoke_missing_id (input : GenerateInput) (model : ModelDefinition)
    (resp : Option Json) (fetches : Nat → Option Json) (ival tmo : Nat)
    (hv : validateInputByModel input model = .ok ())
    (hid : extractJobId (pickJob resp) = none) :
    generateInvoke input model resp fetches ival tmo = .error (missingJobIdMsg resp) := by
  rw [generateInvoke]
  simp [hv, hid, Bind.bind, Except.bind, throw, throwThe, MonadExceptOf.throw]

theorem pollLoop_ok_terminal (jobId : String) (fetches : Nat → Option Json) (ival tmo : Nat) :
    ∀ fuel elapsed n out,
      pollLoop jobId fetches ival tmo fuel elapsed n = .ok out →
      isTerminalStatus (normalizeStatus (readString (some out.job) ["status"])) = true := by
  intro fuel
  induction fuel with
  | zero =>
    intro elapsed n out h
    rw [pollLoop] at h
    split at h <;> simp at h
  | succ fuel ih =>
    intro elapsed n out h
    rw [pollLoop] at h
    split at h
    · split at h
      case isTrue hterm =>
        cases h
        exact hterm
      case isFalse hterm => exact ih _ _ _ h
    · simp at h

theorem pollLoop_timeout (jobId : String) (fetches : Nat → Option Json) (ival tmo : Nat)
    (hnt : ∀ k, isTerminalStatus (normalizeStatus
      (readString (some (pickJob (fetches k))) ["status"])) = false) :
    ∀ fuel elapsed n, tmo ≤ elapsed + fuel * ival →
      pollLoop jobId fetches ival tmo fuel elapsed n = .error (timeoutMessage jobId tmo) := by
  intro fuel
  induction fuel with
  | zero =>
    intro elapsed n hle
    rw [pollLoop]
    rw [if_neg (by omega)]
  | succ fuel ih =>
    intro elapsed n hle
    rw [pollLoop]
    split
    case isFalse hge => rfl
    case isTrue hlt =>
      rw [hnt n, if_neg (by simp)]
      apply ih
      rw [Nat.succ_mul] at hle
      omega

theorem pollLoop_first_terminal (jobId : String) (fetches : Nat → Option Json) (ival tmo : Nat) :
    ∀ m fuel elapsed n,
      (∀ j, j < m → isTerminalStatus (normalizeStatus
        (readString (some (pickJob (fetches (n + j)))) ["status"])) = false) →
      isTerminalStatus (normalizeStatus
        (readString (some (pickJob (fetches (n + m)))) ["status"])) = true →
      elapsed + m * ival < tmo →
      tmo ≤ elapsed + fuel * ival →
      pollLoop jobId fetches ival tmo fuel elapsed n =
        .ok ⟨pickJob (fetches (n + m)), fetches (n + m), n + m + 1⟩ := by
  intro m
  induction m with
  | zero =>
    intro fuel elapsed n hpre hterm hlt hfuel
    simp only [Nat.zero_mul, Nat.add_zero] at hterm hlt ⊢
    cases fuel with
    | zero =>
      simp only [Nat.zero_mul, Nat.add_zero] at hfuel
      omega
    | succ fuel =>
      rw [pollLoop, if_pos (by omega)]
      rw [hterm, if_pos rfl]
  | succ m ih =>
    intro fuel elapsed n hpre hterm hlt hfuel
    have hlt' : elapsed < tmo := by
      rw [Nat.succ_mul] at hlt
      omega
    cases fuel with
    | zero =>
      simp only [Nat.zero_mul, Nat.add_zero] at hfuel
      omega
    | succ fuel =>
      rw [pollLoop, if_pos hlt']
      have h0 := hpre 0 (by omega)
      simp only [Nat.add_zero] at h0
      rw [h0, if_neg (by simp)]
      have heq1 : ∀ j, n + 1 + j = n + (j + 1) := by omega
      have := ih fuel (elapsed + ival) (n + 1)
        (fun j hj => by rw [heq1 j]; exact hpre (j + 1) (by omega))
        (by rw [heq1 m]; exact hterm)
        (by rw [Nat.succ_mul] at hlt; omega)
        (by rw [Nat.succ_mul] at hfuel; omega)
      rw [this]
      have heq2 : n + 1 + m = n + (m + 1) := by omega
      rw [heq2]

theorem waitFor_initial_terminal (initialJob j : Json) (jobId : String)
    (fetches : Nat → Option Json) (ival tmo : Nat)
    (hobj : asObject initialJob = some j)
    (hterm : isTerminalStatus (normalizeStatus (readString (some j) ["status"])) = true) :
    waitForJobCompletion initialJob jobId fetches ival tmo =
      .ok ⟨j, some (.obj [("job", j)]), 0⟩ := by
  rw [waitForJobCompletion]
  rw [hobj]
  simp only [Option.getD_some]
  rw [hterm, if_pos rfl]

end Srv

namespace Legacy

theorem legacy_generateInvoke_missing_id (input : GenerateInput) (model : ModelDefinition)
    (resp : Option Json) (fetches : Nat → Option Json) (ival tmo : Nat)
    (hv : validateInputByModel input model = .ok ())
    (hid : extractJobId (pickJob resp) = none) :
    generateInvoke input model resp fetches ival tmo = .error (missingJobIdMsg resp) := by
  rw [generateInvoke]
  simp [hv, hid, Bind.bind, Except.bind, throw, throwThe, MonadExceptOf.throw]

end Legacy

end KreaMcp

namespace KreaMcp

theorem stringLeaf_null {s : String} : ¬ StringLeaf .null s := by
  intro h; cases h

theorem stringLeaf_bool {b : Bool} {s : String} : ¬ StringLeaf (.bool b) s := by
  intro h; cases h

theorem stringLeaf_num {q : ℚ} {s : String} : ¬ StringLeaf (.num q) s := by
  intro h; cases h

theorem stringLeaf_str {t s : String} : StringLeaf (.str t) s ↔ t = s := by
  constructor
  · intro h; cases h; rfl
  · rintro rfl; exact .str _

theorem stringLeaf_arr {items : List Json} {s : String} :
    StringLeaf (.arr items) s ↔ ∃ j ∈ items, StringLeaf j s := by
  constructor
  · intro h
    cases h with
    | arr hm hl => exact ⟨_, hm, hl⟩
  · rintro ⟨j, hm, hl⟩; exact .arr hm hl

theorem stringLeaf_obj {fields : List (String × Json)} {s : String} :
    StringLeaf (.obj fields) s ↔ ∃ kv ∈ fields, StringLeaf kv.2 s := by
  constructor
  · intro h
    cases h with
    | obj hm hl => exact ⟨_, hm, hl⟩
  · rintro ⟨⟨k, j⟩, hm, hl⟩; exact .obj hm hl

theorem extractLoop_mem (s : String) :
    ∀ stack found, s ∈ extractLoop stack found ↔
      s ∈ found ∨ (looksLikeUrl s = true ∧ ∃ j ∈ stack, StringLeaf j s) := by
  intro stack found
  induction stack, found using extractLoop.induct with
  | case1 found => simp [extractLoop]
  | case2 rest found ih =>
    rw [extractLoop, ih]
    simp [stringLeaf_null]
  | case3 b rest found ih =>
    rw [extractLoop, ih]
    simp [stringLeaf_bool]
  | case4 q rest found ih =>
    rw [extractLoop, ih]
    simp [stringLeaf_num]
  | case5 t rest found ih =>
    rw [extractLoop]
    simp only [dite_eq_ite] at ih
    rw [ih]
    have hcons : (∃ j ∈ (Json.str t :: rest), StringLeaf j s) ↔
        (t = s ∨ ∃ j ∈ rest, StringLeaf j s) := by
      constructor
      · rintro ⟨j, hj, hl⟩
        rcases List.mem_cons.mp hj with rfl | hj2
        · exact Or.inl (stringLeaf_str.mp hl)
        · exact Or.inr ⟨j, hj2, hl⟩
      · rintro (rfl | ⟨j, hj, hl⟩)
        · exact ⟨Json.str t, List.mem_cons_self _ _, .str _⟩
        · exact ⟨j, List.mem_cons_of_mem _ hj, hl⟩
    have hF : ∀ x, (x ∈ (if (looksLikeUrl t && !found.contains t) = true
          then found ++ [t] else found)) ↔
        (x ∈ found ∨ (looksLikeUrl t = true ∧ t ∉ found ∧ x = t)) := by
      intro x
      split
      case isTrue hc =>
        simp only [Bool.and_eq_true, Bool.not_eq_true'] at hc
        have hnt : t ∉ found := by simpa using hc.2
        simp [List.mem_append, hc.1, hnt]
      case isFalse hc =>
        simp only [Bool.and_eq_true, Bool.not_eq_true', not_and] at hc
        constructor
        · exact Or.inl
        · rintro (hx | ⟨hu, hnf, rfl⟩)
          · exact hx
          · exact absurd (by simpa using hnf) (hc hu)
    rw [hF s, hcons]
    by_cases hst : t = s
    · subst hst
      tauto
    · have hst2 : ¬ s = t := fun hh => hst hh.symm
      tauto
  | case6 items rest found ih =>
    rw [extractLoop, ih]
    simp only [List.mem_append, List.mem_reverse, List.mem_cons, stringLeaf_arr]
    constructor
    · rintro (hf | ⟨hu, j, hj | hj, hl⟩)
      · exact Or.inl hf
      · exact Or.inr ⟨hu, _, Or.inl rfl, stringLeaf_arr.mpr ⟨j, hj, hl⟩⟩
      · exact Or.inr ⟨hu, j, Or.inr hj, hl⟩
    · rintro (hf | ⟨hu, j, hj | hj, hl⟩)
      · exact Or.inl hf
      · subst hj
        rw [stringLeaf_arr] at hl
        obtain ⟨j', hj', hl'⟩ := hl
        exact Or.inr ⟨hu, j', Or.inl hj', hl'⟩
      · exact Or.inr ⟨hu, j, Or.inr hj, hl⟩
  | case7 fields rest found ih =>
    rw [extractLoop, ih]
    simp only [List.mem_append, List.mem_reverse, List.mem_map, List.mem_cons]
    constructor
    · rintro (hf | ⟨hu, j, ⟨kv, hkv, rfl⟩ | hj, hl⟩)
      · exact Or.inl hf
      · exact Or.inr ⟨hu, _, Or.inl rfl, stringLeaf_obj.mpr ⟨kv, hkv, hl⟩⟩
      · exact Or.inr ⟨hu, j, Or.inr hj, hl⟩
    · rintro (hf | ⟨hu, j, hj | hj, hl⟩)
      · exact Or.inl hf
      · subst hj
        rw [stringLeaf_obj] at hl
        obtain ⟨kv, hkv, hl'⟩ := hl
        exact Or.inr ⟨hu, kv.2, Or.inl ⟨kv, hkv, rfl⟩, hl'⟩
      · exact Or.inr ⟨hu, j, Or.inr hj, hl⟩

theorem extractLoop_nodup :
    ∀ stack found, found.Nodup → (extractLoop stack found).Nodup := by
  intro stack found
  induction stack, found using extractLoop.induct with
  | case1 found => intro h; rw [extractLoop]; exact h
  | case2 rest found ih => intro h; rw [extractLoop]; exact ih h
  | case3 b rest found ih => intro h; rw [extractLoop]; exact ih h
  | case4 q rest found ih => intro h; rw [extractLoop]; exact ih h
  | case5 t rest found ih =>
    intro h
    rw [extractLoop]
    simp only [dite_eq_ite] at ih
    apply ih
    by_cases hcond : (looksLikeUrl t && !found.contains t) = true
    · rw [if_pos hcond]
      simp only [Bool.and_eq_true, Bool.not_eq_true'] at hcond
      have hnt : t ∉ found := by simpa using hcond.2
      simp [List.nodup_append, h, hnt]
    · rw [if_neg hcond]; exact h
  | case6 items rest found ih => intro h; rw [extractLoop]; exact ih h
  | case7 fields rest found ih => intro h; rw [extractLoop]; exact ih h

end KreaMcp

namespace KreaMcp

theorem waitFor_nonterminal (initialJob : Json) (jobId : String)
    (fetches : Nat → Option Json) (ival tmo : Nat)
    (hnt : isTerminalStatus (normalizeStatus
      (readString (some ((asObject initialJob).getD (.obj []))) ["status"])) = false) :
    waitForJobCompletion initialJob jobId fetches ival tmo =
      pollLoop jobId fetches ival tmo tmo 0 0 := by
  simp only [waitForJobCompletion]
  rw [hnt]
  simp

theorem jsGet_append_single (p : List (String × Json)) (k : String) (v : Json) (key : String) :
    jsGet (p ++ [(k, v)]) key = if key = k then some v else jsGet p key := by
  simp only [jsGet, List.reverse_append, List.reverse_cons, List.reverse_nil,
    List.nil_append, List.cons_append, List.lookup]
  by_cases h : key = k
  · simp [h]
  · simp [h, beq_false_of_ne h]

theorem jsGet_optField {α : Type} (v : Option α) (k : String) (enc : α → Json)
    (p : List (String × Json)) (key : String) (h : key ≠ k) :
    jsGet (optField v k enc p) key = jsGet p key := by
  cases v <;> simp [optField, jsGet_append_single, h]

namespace Srv

theorem payloadTail_get (input : GenerateInput) (p : List (String × Json)) (key : String)
    (hk : key = "width" ∨ key = "height") :
    jsGet (payloadTail input p) key = jsGet p key := by
  rcases hk with rfl | rfl <;>
  · simp only [payloadTail]
    rw [jsGet_optField _ _ _ _ _ (by decide)]
    rw [jsGet_optField _ _ _ _ _ (by decide)]
    rw [jsGet_optField _ _ _ _ _ (by decide)]
    rw [jsGet_optField _ _ _ _ _ (by decide)]
    rw [jsGet_optField _ _ _ _ _ (by decide)]
    rw [jsGet_optField _ _ _ _ _ (by split <;> decide)]
    rw [jsGet_optField _ _ _ _ _ (by split <;> decide)]
    rw [jsGet_optField _ _ _ _ _ (by decide)]
    rw [jsGet_optField _ _ _ _ _ (by decide)]

theorem dimensionField_get_explicit (w : Nat) (fromSize : Option Nat) (required : Bool)
    (dflt : Option Nat) (key : String) (p : List (String × Json)) :
    jsGet (dimensionField (some w) fromSize required dflt key p) key = some (.num w) := by
  simp [dimensionField, jsGet_append_single]

theorem dimensionField_get_size (v : Nat) (required : Bool) (dflt : Option Nat)
    (key : String) (p : List (String × Json)) :
    jsGet (dimensionField none (some v) required dflt key p) key = some (.num v) := by
  simp [dimensionField, jsGet_append_single]

theorem dimensionField_get_default (d : Nat) (key : String) (p : List (String × Json)) :
    jsGet (dimensionField none none true (some d) key p) key = some (.num d) := by
  simp [dimensionField, jsGet_append_single]

theorem dimensionField_get_skip (required : Bool) (dflt : Option Nat) (key : String)
    (p : List (String × Json)) (h : required = false ∨ dflt = none) :
    jsGet (dimensionField none none required dflt key p) key = jsGet p key := by
  rcases h with rfl | rfl
  · cases dflt <;> simp [dimensionField]
  · cases required <;> simp [dimensionField]

theorem dimensionField_get_other (explicit fromSize : Option Nat) (required : Bool)
    (dflt : Option Nat) (key key2 : String) (p : List (String × Json)) (h : key2 ≠ key) :
    jsGet (dimensionField explicit fromSize required dflt key p) key2 = jsGet p key2 := by
  cases explicit <;> cases fromSize <;> cases dflt <;> cases required <;>
    simp [dimensionField, jsGet_append_single, h]

end Srv

namespace Legacy

theorem legacy_dimensionField_get_explicit (w : Nat) (required : Bool)
    (dflt : Option Nat) (key : String) (p : List (String × Json)) :
    jsGet (dimensionField (some w) required dflt key p) key = some (.num w) := by
  simp [dimensionField, jsGet_append_single]

theorem legacy_dimensionField_get_default (d : Nat) (key : String) (p : List (String × Json)) :
    jsGet (dimensionField none true (some d) key p) key = some (.num d) := by
  simp [dimensionField, jsGet_append_single]

theorem legacy_dimensionField_get_other (explicit : Option Nat) (required : Bool)
    (dflt : Option Nat) (key key2 : String) (p : List (String × Json)) (h : key2 ≠ key) :
    jsGet (dimensionField explicit required dflt key p) key2 = jsGet p key2 := by
  cases explicit <;> cases dflt <;> cases required <;>
    simp [dimensionField, jsGet_append_single, h]

theorem buildPayload_tail_get (input : GenerateInput) (p : List (String × Json)) (key : String)
    (hk : key = "width" ∨ key = "height") :
    jsGet (KreaMcp.optField input.sync_mode "sync_mode" Json.bool
      (KreaMcp.optField input.image_url "imageUrl" Json.str
        (KreaMcp.optField input.reference_images "referenceImages" (fun l => .arr (l.map .str))
          (KreaMcp.optField input.reference_image "referenceImage" Json.str
            (KreaMcp.optField input.style "style" Json.str
              (KreaMcp.optField input.size "size" Json.str
                (KreaMcp.optField input.negative_prompt "negative_prompt" Json.str
                  (KreaMcp.optField input.num_inference_steps "num_inference_steps" (fun n => .num n)
                    (KreaMcp.optField input.guidance_scale "guidance_scale" Json.num
                      (KreaMcp.optField input.seed "seed" (fun n => .num n) p)))))))))) key =
    jsGet p key := by
  rcases hk with rfl | rfl <;>
  · rw [jsGet_optField _ _ _ _ _ (by decide)]
    rw [jsGet_optField _ _ _ _ _ (by decide)]
    rw [jsGet_optField _ _ _ _ _ (by decide)]
    rw [jsGet_optField _ _ _ _ _ (by decide)]
    rw [jsGet_optField _ _ _ _ _ (by decide)]
    rw [jsGet_optField _ _ _ _ _ (by decide)]
    rw [jsGet_optField _ _ _ _ _ (by decide)]
    rw [jsGet_optField _ _ _ _ _ (by decide)]
    rw [jsGet_optField _ _ _ _ _ (by decide)]
    rw [jsGet_optField _ _ _ _ _ (by decide)]

end Legacy

end KreaMcp

namespace KreaMcp

/-- C10 counterexample: for the base URL "http://a//" — which ends in "/" —
the claim's equality fails: the client built from it and the client built
from the URL with the single trailing slash removed issue different request
URLs, and the stored base still ends in "/" so the concatenation has a
double slash at the seam. -/
theorem requestUrl_double_slash_cex :
    strEndsWith "http://a//" "/" = true ∧
    requestUrl "http://a//" "/jobs/1" ≠ requestUrl "http://a/" "/jobs/1" ∧
    strEndsWith (clientBaseUrl "http://a//") "/" = true := by
  refine ⟨by decide, by decide, by decide⟩

/-- C10 (amended): the constructor strips exactly one trailing "/", so for
every base URL that ends in "/" but not in "//", the client issues exactly
the same request URLs as a client built from the base URL with the trailing
slash removed, and the stored base has no trailing slash (no double slash at
the concatenation seam). -/
theorem requestUrl_trailing_slash (baseUrl path : String)
    (h1 : strEndsWith baseUrl "/" = true)
    (h2 : strEndsWith (baseUrl.dropRight 1) "/" = false) :
    clientBaseUrl baseUrl = baseUrl.dropRight 1 ∧
    requestUrl baseUrl path = requestUrl (baseUrl.dropRight 1) path ∧
    strEndsWith (clientBaseUrl baseUrl) "/" = false := by
  have hb : clientBaseUrl baseUrl = baseUrl.dropRight 1 := by
    unfold clientBaseUrl
    rw [if_pos h1]
  have hb2 : clientBaseUrl (baseUrl.dropRight 1) = baseUrl.dropRight 1 := by
    unfold clientBaseUrl
    rw [if_neg (by simp [h2])]
  refine ⟨hb, ?_, ?_⟩
  · unfold requestUrl
    rw [hb, hb2]
  · rw [hb]
    exact h2

/-- C10 witness: the default-looking base URL with one trailing slash. -/
theorem requestUrl_trailing_slash_witness :
    clientBaseUrl "https://api.krea.ai/v1/" = "https://api.krea.ai/v1/".dropRight 1 ∧
    requestUrl "https://api.krea.ai/v1/" "/jobs/abc" =
      requestUrl ("https://api.krea.ai/v1/".dropRight 1) "/jobs/abc" ∧
    strEndsWith (clientBaseUrl "https://api.krea.ai/v1/") "/" = false :=
  requestUrl_trailing_slash "https://api.krea.ai/v1/" "/jobs/abc" (by decide) (by decide)

/-- C7 counterexample: a whitespace-only body is non-empty yet is NOT kept as
the raw text value — the code tests emptiness after trimming, so the body
value degrades to undefined instead. -/
theorem kreaRequest_whitespace_body_cex :
    0 < " ".length ∧
    kreaRequest (fun _ => none) ⟨200, " "⟩ = .ok none ∧
    kreaRequest (fun _ => none) ⟨200, " "⟩ ≠ .ok (some (Json.str " ")) := by
  refine ⟨by decide, rfl, ?_⟩
  intro hcon
  rw [show kreaRequest (fun _ => none) ⟨200, " "⟩ = .ok none from rfl] at hcon
  exact Option.noConfusion (Except.ok.inj hcon)

/-- C7 (amended): for every HTTP call, a body that is non-empty after
trimming whitespace and fails JSON parsing is kept as the raw text value
rather than causing a failure; a non-2xx status yields a KreaApiError
carrying the numeric status and the stringified parsed-or-raw body, so a
caller never receives a non-2xx response as a normal value; and exactly one
response of the pending stream is consumed per call (no retries). -/
theorem kreaRequest_spec (parseJson : String → Option Json) (response : HttpResponse) :
    (0 < (jsTrim response.bodyText).length → parseJson response.bodyText = none →
      responseBodyValue parseJson response = some (.str response.bodyText) ∧
      (responseOk response.status →
        kreaRequest parseJson response = .ok (some (.str response.bodyText))) ∧
      (¬ responseOk response.status →
        kreaRequest parseJson response =
          .error ⟨"Krea API error " ++ toString response.status, response.status,
            some response.bodyText⟩)) ∧
    (∀ v, kreaRequest parseJson response = .ok v → responseOk response.status) ∧
    (¬ responseOk response.status →
      kreaRequest parseJson response =
        .error ⟨"Krea API error " ++ toString response.status, response.status,
          stringifyUnknown (responseBodyValue parseJson response)⟩) ∧
    (∀ rest, kreaRequestStream parseJson (response :: rest) =
      some (kreaRequest parseJson response, rest)) := by
  have hbody : ∀ (hn : 0 < (jsTrim response.bodyText).length)
      (hp : parseJson response.bodyText = none),
      responseBodyValue parseJson response = some (.str response.bodyText) := by
    intro hn hp
    unfold responseBodyValue
    rw [if_pos hn, hp]
  refine ⟨fun hn hp => ⟨hbody hn hp, ?_, ?_⟩, ?_, ?_, fun rest => rfl⟩
  · intro hok
    unfold kreaRequest
    rw [if_pos hok, hbody hn hp]
  · intro hbad
    unfold kreaRequest
    rw [if_neg hbad, hbody hn hp]
    rfl
  · intro v hok
    unfold kreaRequest at hok
    split at hok
    · assumption
    · exact Except.noConfusion hok
  · intro hbad
    unfold kreaRequest
    rw [if_neg hbad]

/-- C7 witness: a 500 response with an unparseable non-empty body. -/
theorem kreaRequest_spec_witness :
    responseBodyValue (fun _ => none) ⟨500, "oops"⟩ = some (.str "oops") ∧
    kreaRequest (fun _ => none) ⟨500, "oops"⟩ =
      .error ⟨"Krea API error " ++ toString 500, 500, some "oops"⟩ :=
  ⟨((kreaRequest_spec (fun _ => none) ⟨500, "oops"⟩).1 (by decide) rfl).1,
   ((kreaRequest_spec (fun _ => none) ⟨500, "oops"⟩).1 (by decide) rfl).2.2 (by decide)⟩

end KreaMcp

namespace KreaMcp

/-- C4: if the status of the job record returned at creation time normalizes
to a terminal value, the poller returns that record immediately — with a
synthesized `{job: ...}` raw response and a fetch count of zero, for every
fetch oracle (no job-fetch network call is made). -/
theorem poller_initial_terminal (initialJob j : Json) (jobId : String)
    (fetches : Nat → Option Json) (ival tmo : Nat)
    (hobj : asObject initialJob = some j)
    (hterm : isTerminalStatus (normalizeStatus (readString (some j) ["status"])) = true) :
    waitForJobCompletion initialJob jobId fetches ival tmo =
      .ok ⟨j, some (.obj [("job", j)]), 0⟩ := by
  rw [waitForJobCompletion]
  rw [hobj]
  simp only [Option.getD_some]
  rw [hterm, if_pos rfl]

/-- C4 witness: an initial job record whose status is "completed". -/
theorem poller_initial_terminal_witness :
    waitForJobCompletion (Json.obj [("status", Json.str "completed")]) "job-1"
      (fun _ => none) 2000 180000 =
      .ok ⟨Json.obj [("status", Json.str "completed")],
        some (.obj [("job", Json.obj [("status", Json.str "completed")])]), 0⟩ :=
  poller_initial_terminal _ _ "job-1" _ 2000 180000 rfl rfl

/-- C5: for a positive poll interval and a non-terminal initial status, the
poller (deadline `now + timeoutMs` computed once, idealized clock advancing
one interval per iteration): (1) fails with the Timeout error — whose text
names the job id and the timeout value — when no fetch within the deadline
returns a terminal status; (2) never returns a job whose normalized status
is non-terminal; (3) has no iteration cap independent of the deadline: if
the first terminal response is the m-th fetch and m intervals still fit in
the deadline, it returns exactly that job and raw response after m+1
fetches. -/
theorem poller_deadline_spec (initialJob : Json) (jobId : String)
    (fetches : Nat → Option Json) (ival tmo : Nat) (hiv : 0 < ival) :
    (isTerminalStatus (normalizeStatus
        (readString (some ((asObject initialJob).getD (.obj []))) ["status"])) = false →
      (∀ k, isTerminalStatus (normalizeStatus
          (readString (some (pickJob (fetches k))) ["status"])) = false) →
        waitForJobCompletion initialJob jobId fetches ival tmo =
          .error (timeoutMessage jobId tmo)) ∧
    (∀ out, waitForJobCompletion initialJob jobId fetches ival tmo = .ok out →
      isTerminalStatus (normalizeStatus (readString (some out.job) ["status"])) = true) ∧
    (∀ m,
      isTerminalStatus (normalizeStatus
        (readString (some ((asObject initialJob).getD (.obj []))) ["status"])) = false →
      (∀ k, k < m → isTerminalStatus (normalizeStatus
        (readString (some (pickJob (fetches k))) ["status"])) = false) →
      isTerminalStatus (normalizeStatus
        (readString (some (pickJob (fetches m))) ["status"])) = true →
      m * ival < tmo →
      waitForJobCompletion initialJob jobId fetches ival tmo =
        .ok ⟨pickJob (fetches m), fetches m, m + 1⟩) ∧
    timeoutMessage jobId tmo =
      "Job " ++ jobId ++ " did not reach a terminal status within " ++ toString tmo ++ "ms." := by
  have hfuel : tmo ≤ 0 + tmo * ival := by
    have := Nat.le_mul_of_pos_right tmo hiv
    omega
  refine ⟨?_, ?_, ?_, ?_⟩
  · intro hnt hall
    rw [waitFor_nonterminal _ _ _ _ _ hnt]
    exact Srv.pollLoop_timeout jobId fetches ival tmo hall tmo 0 0 hfuel
  · intro out h
    simp only [waitForJobCompletion] at h
    split at h
    case isTrue hterm =>
      cases h
      exact hterm
    case isFalse hterm => exact Srv.pollLoop_ok_terminal _ _ _ _ _ _ _ _ h
  · intro m hnt hpre hterm hlt
    rw [waitFor_nonterminal _ _ _ _ _ hnt]
    have := Srv.pollLoop_first_terminal jobId fetches ival tmo m tmo 0 0
      (fun j hj => by simpa using hpre j hj) (by simpa using hterm) (by omega) hfuel
    simpa using this
  · rfl

/-- C5 witness: every fetch stays "running", interval 500, timeout 1000. -/
theorem poller_deadline_spec_witness :
    waitForJobCompletion (Json.obj [("status", Json.str "pending")]) "job-2"
      (fun _ => some (Json.obj [("status", Json.str "running")])) 500 1000 =
      .error (timeoutMessage "job-2" 1000) :=
  (poller_deadline_spec (Json.obj [("status", Json.str "pending")]) "job-2"
    (fun _ => some (Json.obj [("status", Json.str "running")])) 500 1000 (by decide)).1
    rfl (fun k => rfl)

end KreaMcp

namespace KreaMcp

/-- C9: a vendor response value that is not a (truthy) object — a bare
string, null, undefined, a number or a boolean — makes `pickJob` return the
empty record; the subsequent id and job_id reads give undefined, the status
read gives undefined (normalizing to "unknown"), and the orchestration of
either tool fails with exactly the intended MissingJobId error, for every
fetch oracle. Nothing in this path inspects a key of a non-object. -/
theorem pickJob_non_object_safe (resp : Option Json) (h : jsTruthyObjectU resp = false) :
    pickJob resp = .obj [] ∧
    readString (some (pickJob resp)) ["id"] = none ∧
    readString (some (pickJob resp)) ["job_id"] = none ∧
    Srv.extractJobId (pickJob resp) = none ∧
    readString (some (pickJob resp)) ["status"] = none ∧
    normalizeStatus (readString (some (pickJob resp)) ["status"]) = "unknown" ∧
    (∀ input req fetches ival tmo, Srv.buildUpscaleRequest input = .ok req →
      Srv.upscaleInvoke input resp fetches ival tmo = .error (Srv.missingJobIdMsg resp)) ∧
    (∀ input model fetches ival tmo, Srv.validateInputByModel input model = .ok () →
      Srv.generateInvoke input model resp fetches ival tmo =
        .error (Srv.missingJobIdMsg resp)) := by
  have hpick : pickJob resp = .obj [] := by
    cases resp with
    | none => rfl
    | some r =>
      simp only [jsTruthyObjectU] at h
      simp [pickJob, h]
  have hid : Srv.extractJobId (pickJob resp) = none := by rw [hpick]; rfl
  refine ⟨hpick, by rw [hpick]; rfl, by rw [hpick]; rfl, hid, by rw [hpick]; rfl,
    by rw [hpick]; rfl, ?_, ?_⟩
  · intro input req fetches ival tmo hb
    exact Srv.upscaleInvoke_missing_id input req resp fetches ival tmo hb hid
  · intro input model fetches ival tmo hv
    exact Srv.generateInvoke_missing_id input model resp fetches ival tmo hv hid

/-- C9 witness: the bare-string response produced when an HTTP body fails
JSON parsing. -/
theorem pickJob_non_object_safe_witness :
    pickJob (some (Json.str "oops")) = .obj [] ∧
    normalizeStatus (readString (some (pickJob (some (Json.str "oops")))) ["status"])
      = "unknown" :=
  ⟨(pickJob_non_object_safe (some (Json.str "oops")) rfl).1,
   (pickJob_non_object_safe (some (Json.str "oops")) rfl).2.2.2.2.2.1⟩

/-- C3 counterexample: the older copy's generate handler checks only the
`id` field. A create response whose job record carries the id under
`job_id` — which the claim says is consulted — still fails with
MissingJobId there. -/
theorem legacy_job_id_cex :
    readString (some (pickJob (some (Json.obj [("job_id", Json.str "abc")])))) ["job_id"]
      = some "abc" ∧
    Legacy.generateInvoke { model := "flux_1_dev", prompt := "x" } flux_1_dev
      (some (Json.obj [("job_id", Json.str "abc")])) (fun _ => none) 2000 180000 =
      .error (Legacy.missingJobIdMsg (some (Json.obj [("job_id", Json.str "abc")]))) :=
  ⟨rfl, rfl⟩

/-- C3 (amended): in the newer server copy both generate and upscale
invocations extract the job id by checking `id` then `job_id`; the older
copy's generate invocation checks only `id`. In every copy, when the check
yields no string the invocation fails with a MissingJobId error whose
message is the fixed prefix followed by the stringified raw response, and
the failure is the same for every fetch oracle — no polling occurs. -/
theorem job_id_extraction :
    (∀ j s, readString (some j) ["id"] = some s → Srv.extractJobId j = some s) ∧
    (∀ j s, readString (some j) ["id"] = none → readString (some j) ["job_id"] = some s →
      Srv.extractJobId j = some s) ∧
    (∀ j, Legacy.extractJobId j = readString (some j) ["id"]) ∧
    (∀ resp, Srv.missingJobIdMsg resp =
      "Krea response does not include job id. Response: " ++
        jsTemplate (stringifyUnknown resp)) ∧
    (∀ resp, Legacy.missingJobIdMsg resp =
      "Krea response does not include job.id. Response: " ++
        jsTemplate (stringifyUnknown resp)) ∧
    (∀ input req resp fetches ival tmo, Srv.buildUpscaleRequest input = .ok req →
      Srv.extractJobId (pickJob resp) = none →
      Srv.upscaleInvoke input resp fetches ival tmo = .error (Srv.missingJobIdMsg resp)) ∧
    (∀ input model resp fetches ival tmo, Srv.validateInputByModel input model = .ok () →
      Srv.extractJobId (pickJob resp) = none →
      Srv.generateInvoke input model resp fetches ival tmo =
        .error (Srv.missingJobIdMsg resp)) ∧
    (∀ input model resp fetches ival tmo, Legacy.validateInputByModel input model = .ok () →
      Legacy.extractJobId (pickJob resp) = none →
      Legacy.generateInvoke input model resp fetches ival tmo =
        .error (Legacy.missingJobIdMsg resp)) := by
  refine ⟨?_, ?_, fun j => rfl, fun resp => rfl, fun resp => rfl, ?_, ?_, ?_⟩
  · intro j s hs
    unfold Srv.extractJobId
    rw [hs]
  · intro j s h1 h2
    unfold Srv.extractJobId
    rw [h1, h2]
  · exact fun input req resp fetches ival tmo hb hid =>
      Srv.upscaleInvoke_missing_id input req resp fetches ival tmo hb hid
  · exact fun input model resp fetches ival tmo hv hid =>
      Srv.generateInvoke_missing_id input model resp fetches ival tmo hv hid
  · exact fun input model resp fetches ival tmo hv hid =>
      Legacy.legacy_generateInvoke_missing_id input model resp fetches ival tmo hv hid

/-- C3 witness: a job record carrying only `job_id` resolves through the
newer extraction's second field. -/
theorem job_id_extraction_witness :
    Srv.extractJobId (Json.obj [("job_id", Json.str "abc")]) = some "abc" :=
  job_id_extraction.2.1 (Json.obj [("job_id", Json.str "abc")]) "abc" rfl rfl

end KreaMcp

namespace KreaMcp

/-- C6: the upscale mode determines the endpoint — one fixed path per mode —
and the dimension ceiling (32000 for standard and generative, 10000 for
bloom); a successful build respects the ceiling, and a width or height above
the active mode's ceiling makes the builder fail with the dimension error
before anything else, and the whole invocation then fails identically for
every fetch oracle (no network call). -/
theorem upscale_endpoint_max_dims :
    (∀ input r, Srv.buildUpscaleRequest input = .ok r →
      r.endpoint = Srv.upscaleEndpoint (input.mode.getD .standard) ∧
      input.width ≤ Srv.maxDimensionFor (input.mode.getD .standard) ∧
      input.height ≤ Srv.maxDimensionFor (input.mode.getD .standard)) ∧
    Srv.upscaleEndpoint .standard = "/generate/enhance/topaz/standard-enhance" ∧
    Srv.upscaleEndpoint .generative = "/generate/enhance/topaz/generative-enhance" ∧
    Srv.upscaleEndpoint .bloom = "/generate/enhance/topaz/bloom-enhance" ∧
    Srv.maxDimensionFor .standard = 32000 ∧
    Srv.maxDimensionFor .generative = 32000 ∧
    Srv.maxDimensionFor .bloom = 10000 ∧
    (∀ input, (Srv.maxDimensionFor (input.mode.getD .standard) < input.width ∨
        Srv.maxDimensionFor (input.mode.getD .standard) < input.height) →
      Srv.buildUpscaleRequest input =
        .error (Srv.dimensionMessage (input.mode.getD .standard) input.width input.height)) ∧
    (∀ input e resp fetches ival tmo, Srv.buildUpscaleRequest input = .error e →
      Srv.upscaleInvoke input resp fetches ival tmo = .error e) := by
  refine ⟨?_, rfl, rfl, rfl, rfl, rfl, rfl, Srv.buildUpscale_dim_error,
    fun input e resp fetches ival tmo hb =>
      Srv.upscaleInvoke_of_build_error input e resp fetches ival tmo hb⟩
  · intro input r h
    rcases hm : input.mode.getD .standard with _ | _ | _
    · obtain ⟨hw, hh, _, he, _⟩ := Srv.buildUpscale_ok_gates_std input r hm h
      exact ⟨he, by simpa [Srv.maxDimensionFor] using hw,
        by simpa [Srv.maxDimensionFor] using hh⟩
    · obtain ⟨hw, hh, _, he, _⟩ := Srv.buildUpscale_ok_gates_gen input r hm h
      exact ⟨he, by simpa [Srv.maxDimensionFor] using hw,
        by simpa [Srv.maxDimensionFor] using hh⟩
    · obtain ⟨hw, hh, _, he, _⟩ := Srv.buildUpscale_ok_gates_bloom input r hm h
      exact ⟨he, by simpa [Srv.maxDimensionFor] using hw,
        by simpa [Srv.maxDimensionFor] using hh⟩

/-- C6 witness: bloom mode with width 20000 fails validation with the
dimension message (the bloom ceiling is 10000). -/
theorem upscale_endpoint_max_dims_witness :
    Srv.buildUpscaleRequest { Srv.baseUpscale with mode := some .bloom, width := 20000 } =
      .error (Srv.dimensionMessage .bloom 20000 1000) :=
  upscale_endpoint_max_dims.2.2.2.2.2.2.2.1
    { Srv.baseUpscale with mode := some .bloom, width := 20000 } (Or.inl (by decide))

end KreaMcp

namespace KreaMcp

/-- C1: supplying a mode-gated tuning parameter to a mode that does not
support it is a hard validation failure: no successful build carries such a
parameter (first conjunct, contrapositive form over all inputs); on a
minimal valid input each such parameter produces exactly the error message
naming it (the thirteen equations); the first violated constraint aborts the
whole build (a bloom input with both sharpen and denoise set reports only
sharpen); in generative mode creativity above 6 fails with the range message
while creativity 6 succeeds; and a build error makes the invocation fail
identically for every fetch oracle, before any network call. -/
theorem upscale_mode_gating :
    (∀ input r, Srv.buildUpscaleRequest input = .ok r →
      (input.mode.getD .standard = .bloom →
        input.sharpen = none ∧ input.denoise = none ∧ input.subject_detection = none ∧
        input.face_enhancement = none ∧ input.face_enhancement_creativity = none ∧
        input.face_enhancement_strength = none) ∧
      (input.mode.getD .standard ≠ .standard →
        input.strength = none ∧ input.fix_compression = none) ∧
      (input.mode.getD .standard ≠ .generative →
        input.texture = none ∧ input.detail = none) ∧
      (input.mode.getD .standard = .standard → input.creativity = none) ∧
      (∀ c, input.creativity = some c → input.mode.getD .standard = .generative → c ≤ 6) ∧
      (input.mode.getD .standard ≠ .bloom →
        input.face_preservation = none ∧ input.color_preservation = none)) ∧
    (∀ v : ℚ, Srv.buildUpscaleRequest
        { Srv.baseUpscale with mode := some .bloom, sharpen := some v } =
      .error "sharpen is not supported in bloom mode.") ∧
    (∀ v : ℚ, Srv.buildUpscaleRequest
        { Srv.baseUpscale with mode := some .bloom, denoise := some v } =
      .error "denoise is not supported in bloom mode.") ∧
    (∀ v : String, Srv.buildUpscaleRequest
        { Srv.baseUpscale with mode := some .bloom, subject_detection := some v } =
      .error "subject_detection is not supported in bloom mode.") ∧
    (∀ v : Bool, Srv.buildUpscaleRequest
        { Srv.baseUpscale with mode := some .bloom, face_enhancement := some v } =
      .error "face_enhancement is not supported in bloom mode.") ∧
    (∀ v : ℚ, Srv.buildUpscaleRequest
        { Srv.baseUpscale with mode := some .bloom, face_enhancement_creativity := some v } =
      .error "face_enhancement_creativity is not supported in bloom mode.") ∧
    (∀ v : ℚ, Srv.buildUpscaleRequest
        { Srv.baseUpscale with mode := some .bloom, face_enhancement_strength := some v } =
      .error "face_enhancement_strength is not supported in bloom mode.") ∧
    (∀ v : ℚ, Srv.buildUpscaleRequest
        { Srv.baseUpscale with mode := some .generative, strength := some v } =
      .error "strength is only supported in standard mode.") ∧
    (∀ v : ℚ, Srv.buildUpscaleRequest
        { Srv.baseUpscale with mode := some .generative, fix_compression := some v } =
      .error "fix_compression is only supported in standard mode.") ∧
    (∀ v : Nat, Srv.buildUpscaleRequest
        { Srv.baseUpscale with mode := some .standard, texture := some v } =
      .error "texture is only supported in generative mode.") ∧
    (∀ v : ℚ, Srv.buildUpscaleRequest
        { Srv.baseUpscale with mode := some .standard, detail := some v } =
      .error "detail is only supported in generative mode.") ∧
    (∀ v : Nat, Srv.buildUpscaleRequest
        { Srv.baseUpscale with mode := some .standard, creativity := some v } =
      .error "creativity is only supported in generative or bloom mode.") ∧
    (∀ v : Bool, Srv.buildUpscaleRequest
        { Srv.baseUpscale with mode := some .standard, face_preservation := some v } =
      .error "face_preservation is only supported in bloom mode.") ∧
    (∀ v : Bool, Srv.buildUpscaleRequest
        { Srv.baseUpscale with mode := some .standard, color_preservation := some v } =
      .error "color_preservation is only supported in bloom mode.") ∧
    (∀ v w : ℚ, Srv.buildUpscaleRequest
        { Srv.baseUpscale with mode := some .bloom, sharpen := some v, denoise := some w } =
      .error "sharpen is not supported in bloom mode.") ∧
    (∀ c : Nat, 6 < c → Srv.buildUpscaleRequest
        { Srv.baseUpscale with mode := some .generative, creativity := some c } =
      .error "generative mode supports creativity from 1 to 6.") ∧
    (Srv.buildUpscaleRequest
        { Srv.baseUpscale with mode := some .generative, creativity := some 6 }).isOk = true ∧
    (∀ input e resp fetches ival tmo, Srv.buildUpscaleRequest input = .error e →
      Srv.upscaleInvoke input resp fetches ival tmo = .error e) := by
  refine ⟨?_, fun v => rfl, fun v => rfl, fun v => rfl, fun v => rfl, fun v => rfl,
    fun v => rfl, fun v => rfl, fun v => rfl, fun v => rfl, fun v => rfl, fun v => rfl,
    fun v => rfl, fun v => rfl, fun v w => rfl, ?_, rfl,
    fun input e resp fetches ival tmo hb =>
      Srv.upscaleInvoke_of_build_error input e resp fetches ival tmo hb⟩
  · intro input r h
    rcases hm : input.mode.getD .standard with _ | _ | _
    · obtain ⟨_, _, _, _, ht, hd, hc, hfp, hcp⟩ := Srv.buildUpscale_ok_gates_std input r hm h
      refine ⟨fun hb => absurd hb (by decide), fun hne => absurd rfl hne,
        fun _ => ⟨ht, hd⟩, fun _ => hc, fun c hcv hgen => absurd hgen (by decide),
        fun _ => ⟨hfp, hcp⟩⟩
    · obtain ⟨_, _, _, _, hst, hfx, hcre, hfp, hcp⟩ :=
        Srv.buildUpscale_ok_gates_gen input r hm h
      refine ⟨fun hb => absurd hb (by decide), fun _ => ⟨hst, hfx⟩,
        fun hne => absurd rfl hne, fun hs => absurd hs (by decide),
        fun c hcv _ => hcre c hcv, fun _ => ⟨hfp, hcp⟩⟩
    · obtain ⟨_, _, _, _, h2, h3, h4, h5, h6, h7, h8, h9, h10, h11⟩ :=
        Srv.buildUpscale_ok_gates_bloom input r hm h
      refine ⟨fun _ => ⟨h2, h3, h4, h5, h6, h7⟩, fun _ => ⟨h8, h9⟩,
        fun _ => ⟨h10, h11⟩, fun hs => absurd hs (by decide),
        fun c hcv hgen => absurd hgen (by decide), fun hne => absurd rfl hne⟩
  · intro c hc
    simp only [Srv.buildUpscaleRequest, Srv.baseUpscale, Srv.maxDimensionFor,
      Srv.resolveUpscaleModel, Srv.UPSCALE_GENERATIVE_MODELS, Srv.gatedField,
      KreaMcp.optField, Option.getD, List.contains_cons, reduceCtorEq, if_false, if_true,
      ite_false, ite_true, Bind.bind, Except.bind, pure, Except.pure]
    norm_num [hc]

/-- C1 witness: generative mode with creativity 7 fails with the range
message. -/
theorem upscale_mode_gating_witness :
    Srv.buildUpscaleRequest
        { Srv.baseUpscale with mode := some .generative, creativity := some 7 } =
      .error "generative mode supports creativity from 1 to 6." :=
  upscale_mode_gating.2.2.2.2.2.2.2.2.2.2.2.2.2.2.2.1 7 (by decide)

end KreaMcp

namespace KreaMcp

/-- C2 counterexample: the older copy's generate builder has no size-string
step. For a required-width model with default 1024 and input
`{prompt: "x", size: "512x256"}` the claim predicts width 512 (parsed from
the size string); the older builder produces the default 1024. -/
theorem legacy_size_precedence_cex :
    jsGet (Legacy.buildPayload
        { model := "flux_1_1_pro", prompt := "x", size := some "512x256" } flux_1_1_pro)
      "width" = some (Json.num 1024) ∧
    ¬ jsGet (Legacy.buildPayload
        { model := "flux_1_1_pro", prompt := "x", size := some "512x256" } flux_1_1_pro)
      "width" = some (Json.num 512) := by
  refine ⟨rfl, ?_⟩
  intro hcon
  rw [show jsGet (Legacy.buildPayload
      { model := "flux_1_1_pro", prompt := "x", size := some "512x256" } flux_1_1_pro)
      "width" = some (Json.num 1024) from rfl] at hcon
  simp only [Option.some.injEq, Json.num.injEq] at hcon
  norm_num at hcon

/-- C2 (amended): in the newer generate builder the payload's width is
resolved with precedence explicit input value, else the value parsed from a
"WxH" size string, else the model's default — applied only when width is
required and a default exists, the key being otherwise left untouched — and
the same holds for height independently per axis; the older builder resolves
explicit-else-gated-default only, with no size step. -/
theorem generate_dimension_precedence :
    (∀ (input : Srv.GenerateInput) (model : ModelDefinition),
      (∀ w, input.width = some w →
        jsGet (Srv.buildPayload input model) "width" = some (.num w)) ∧
      (∀ sw sh, input.width = none → Srv.parseSize input.size = some (sw, sh) →
        jsGet (Srv.buildPayload input model) "width" = some (.num sw)) ∧
      (∀ d, input.width = none → Srv.parseSize input.size = none →
        model.requiredFields.contains .width = true → model.defaultWidth = some d →
        jsGet (Srv.buildPayload input model) "width" = some (.num d)) ∧
      (input.width = none → Srv.parseSize input.size = none →
        (model.requiredFields.contains .width = false ∨ model.defaultWidth = none) →
        jsGet (Srv.buildPayload input model) "width" =
          jsGet ((model.fixedPayload.getD []) ++ [("prompt", Json.str input.prompt)])
            "width") ∧
      (∀ hv, input.height = some hv →
        jsGet (Srv.buildPayload input model) "height" = some (.num hv)) ∧
      (∀ sw sh, input.height = none → Srv.parseSize input.size = some (sw, sh) →
        jsGet (Srv.buildPayload input model) "height" = some (.num sh)) ∧
      (∀ d, input.height = none → Srv.parseSize input.size = none →
        model.requiredFields.contains .height = true → model.defaultHeight = some d →
        jsGet (Srv.buildPayload input model) "height" = some (.num d)) ∧
      (input.height = none → Srv.parseSize input.size = none →
        (model.requiredFields.contains .height = false ∨ model.defaultHeight = none) →
        jsGet (Srv.buildPayload input model) "height" =
          jsGet ((model.fixedPayload.getD []) ++ [("prompt", Json.str input.prompt)])
            "height")) ∧
    (∀ (input : Legacy.GenerateInput) (model : ModelDefinition) (w : Nat),
      input.width = some w →
      jsGet (Legacy.buildPayload input model) "width" = some (.num w)) ∧
    (∀ (input : Legacy.GenerateInput) (model : ModelDefinition) (d : Nat),
      input.width = none → model.requiredFields.contains .width = true →
      model.defaultWidth = some d →
      jsGet (Legacy.buildPayload input model) "width" = some (.num d)) := by
  refine ⟨?_, ?_, ?_⟩
  · intro input model
    have hbw : jsGet (Srv.buildPayload input model) "width" =
        jsGet (Srv.dimensionField input.width ((Srv.parseSize input.size).map Prod.fst)
          (model.requiredFields.contains .width) model.defaultWidth "width"
          ((model.fixedPayload.getD []) ++ [("prompt", Json.str input.prompt)])) "width" := by
      simp only [Srv.buildPayload]
      rw [Srv.payloadTail_get _ _ _ (Or.inl rfl)]
      rw [Srv.dimensionField_get_other _ _ _ _ _ _ _ (by decide)]
    have hbh : jsGet (Srv.buildPayload input model) "height" =
        jsGet (Srv.dimensionField input.height ((Srv.parseSize input.size).map Prod.snd)
          (model.requiredFields.contains .height) model.defaultHeight "height"
          (Srv.dimensionField input.width ((Srv.parseSize input.size).map Prod.fst)
            (model.requiredFields.contains .width) model.defaultWidth "width"
            ((model.fixedPayload.getD []) ++ [("prompt", Json.str input.prompt)]))) "height" := by
      simp only [Srv.buildPayload]
      rw [Srv.payloadTail_get _ _ _ (Or.inr rfl)]
    refine ⟨?_, ?_, ?_, ?_, ?_, ?_, ?_, ?_⟩
    · intro w hw
      rw [hbw, hw]
      exact Srv.dimensionField_get_explicit w _ _ _ _ _
    · intro sw sh hw hs
      rw [hbw, hw, hs]
      exact Srv.dimensionField_get_size sw _ _ _ _
    · intro d hw hs hreq hd
      rw [hbw, hw, hs, hreq, hd]
      exact Srv.dimensionField_get_default d _ _
    · intro hw hs hskip
      rw [hbw, hw, hs]
      simp only [Option.map_none']
      exact Srv.dimensionField_get_skip _ _ _ _ hskip
    · intro hv hh
      rw [hbh, hh]
      exact Srv.dimensionField_get_explicit hv _ _ _ _ _
    · intro sw sh hh hs
      rw [hbh, hh, hs]
      exact Srv.dimensionField_get_size sh _ _ _ _
    · intro d hh hs hreq hd
      rw [hbh, hh, hs, hreq, hd]
      exact Srv.dimensionField_get_default d _ _
    · intro hh hs hskip
      rw [hbh, hh, hs]
      simp only [Option.map_none']
      rw [Srv.dimensionField_get_skip _ _ _ _ hskip]
      exact Srv.dimensionField_get_other _ _ _ _ _ _ _ (by decide)
  · intro input model w hw
    have hbw : jsGet (Legacy.buildPayload input model) "width" =
        jsGet (Legacy.dimensionField input.width (model.requiredFields.contains .width)
          model.defaultWidth "width"
          ((model.fixedPayload.getD []) ++ [("prompt", Json.str input.prompt)])) "width" := by
      simp only [Legacy.buildPayload]
      rw [Legacy.buildPayload_tail_get _ _ _ (Or.inl rfl)]
      rw [Legacy.legacy_dimensionField_get_other _ _ _ _ _ _ (by decide)]
    rw [hbw, hw]
    exact Legacy.legacy_dimensionField_get_explicit w _ _ _ _
  · intro input model d hw hreq hd
    have hbw : jsGet (Legacy.buildPayload input model) "width" =
        jsGet (Legacy.dimensionField input.width (model.requiredFields.contains .width)
          model.defaultWidth "width"
          ((model.fixedPayload.getD []) ++ [("prompt", Json.str input.prompt)])) "width" := by
      simp only [Legacy.buildPayload]
      rw [Legacy.buildPayload_tail_get _ _ _ (Or.inl rfl)]
      rw [Legacy.legacy_dimensionField_get_other _ _ _ _ _ _ (by decide)]
    rw [hbw, hw, hreq, hd]
    exact Legacy.legacy_dimensionField_get_default d _ _

/-- C2 witness: the specification's example — required width and height with
defaults 1024, input `{prompt: "x", width: 512}` — yields width 512 by
explicit precedence and height 1024 by the gated default, independently. -/
theorem generate_dimension_precedence_witness :
    jsGet (Srv.buildPayload { model := "flux_1_1_pro", prompt := "x", width := some 512 }
      flux_1_1_pro) "width" = some (Json.num 512) ∧
    jsGet (Srv.buildPayload { model := "flux_1_1_pro", prompt := "x", width := some 512 }
      flux_1_1_pro) "height" = some (Json.num 1024) :=
  ⟨(generate_dimension_precedence.1 _ _).1 512 rfl,
   (generate_dimension_precedence.1 _ _).2.2.2.2.2.2.1 1024 rfl rfl rfl rfl⟩

end KreaMcp

namespace KreaMcp

/-- C8: the URL-extraction utility returns exactly the deduplicated set of
string leaves of a JSON value that look like absolute http or https URLs —
its output has no duplicates and a string belongs to it precisely when it is
a string leaf passing the URL test (set semantics; the output order is the
loop's insertion order, not the input order) — and on the specification's
example it yields exactly the two genuine URLs, the ftp leaf and the
non-URL string excluded. -/
theorem extract_urls_set_semantics :
    (∀ value : Json, (extractHttpUrls value).Nodup ∧
      (∀ s, s ∈ extractHttpUrls value ↔ (StringLeaf value s ∧ looksLikeUrl s = true))) ∧
    extractHttpUrls urlExampleJson = ["http://y.test/j.png", "https://x.test/i.png"] ∧
    (∀ s, s ∈ extractHttpUrls urlExampleJson ↔
      (s = "https://x.test/i.png" ∨ s = "http://y.test/j.png")) := by
  have hex : extractHttpUrls urlExampleJson =
      ["http://y.test/j.png", "https://x.test/i.png"] := by
    simp only [urlExampleJson, extractHttpUrls, extractLoop.eq_def, List.map_cons,
      List.map_nil, List.reverse_cons, List.reverse_nil, List.nil_append,
      List.cons_append, List.append_nil]
    decide
  refine ⟨?_, hex, ?_⟩
  · intro value
    constructor
    · exact extractLoop_nodup [value] [] List.nodup_nil
    · intro s
      rw [extractHttpUrls, extractLoop_mem]
      simp [and_comm]
  · intro s
    rw [hex]
    constructor
    · intro hs
      rcases List.mem_cons.mp hs with rfl | hs2
      · exact Or.inr rfl
      · rcases List.mem_cons.mp hs2 with rfl | hs3
        · exact Or.inl rfl
        · exact absurd hs3 (List.not_mem_nil s)
    · rintro (rfl | rfl)
      · exact List.mem_cons_of_mem _ (List.mem_cons_self _ _)
      · exact List.mem_cons_self _ _

end KreaMcp
